import Mathlib

/-!
Verification of the cycling-trip-planner agent core: the tool-calling
orchestration loop, plan assembler, response finalizer and conversation
memory (src/agent/agent.py, src/agent/memory.py, src/tools/budget.py).

Modelling conventions:
* Python/JSON values are embedded as `JValue` (numbers as `Rat`: Python's
  `int` and `float` are collapsed into one numeric kind, mirroring Python's
  cross-type numeric equality `1 == 1.0`).
* A raised Python exception is `Except.error ()`; fallible code runs in
  `Except Unit`.
* The language-model gateway, the seven tool executors' input validation and
  execution outcomes, and the progress callback are external collaborators
  (spec sections 1 and 6); they are modelled as oracles in an `Env` record.
* `log_event` (src/agent/logger.py) swallows every exception and only writes
  to a log file, so it is observationally inert and not modelled.
-/

/-- A Python/JSON value. `null` doubles as Python `None` (e.g. the default of
`dict.get`). Objects carry string keys (all dicts that become JSON payloads in
the source have string keys); Python dicts keyed by arbitrary values are
modelled separately as association lists (`PyDict`). -/
inductive JValue where
  | null : JValue
  | bool : Bool → JValue
  | num : Rat → JValue
  | str : String → JValue
  | arr : List JValue → JValue
  | obj : List (String × JValue) → JValue
deriving Repr, Inhabited

/-- Python truthiness of a value (`if x:`). -/
def pyTruthy : JValue → Bool
  | .null => false
  | .bool b => b
  | .num q => q != 0
  | .str s => s != ""
  | .arr l => !l.isEmpty
  | .obj l => !l.isEmpty

/-- Whether a value is hashable (usable as a Python dict key): lists and
dicts are not. -/
def isHashable : JValue → Bool
  | .arr _ => false
  | .obj _ => false
  | _ => true

/-- Python `==` on hashable values, as used for dict-key identity: `True == 1`,
`1 == 1.0`; values of unrelated kinds are unequal. -/
def pyKeyEq : JValue → JValue → Bool
  | .null, .null => true
  | .bool a, .bool b => a == b
  | .bool a, .num b => (if a then (1 : Rat) else 0) == b
  | .num a, .bool b => a == (if b then (1 : Rat) else 0)
  | .num a, .num b => a == b
  | .str a, .str b => a == b
  | _, _ => false

/-- A Python dict keyed by arbitrary (hashable) values, in insertion order. -/
abbrev PyDict := List (JValue × JValue)

/-- First-match lookup in a `PyDict` under Python key equality. -/
def pyLookup (d : PyDict) (k : JValue) : JValue :=
  match d with
  | [] => .null
  | p :: rest => if pyKeyEq p.1 k then p.2 else pyLookup rest k

/-- `d.get(k)` on a `PyDict`: raises `TypeError` on an unhashable key,
returns `None` when the key is absent. -/
def PyDict.get (d : PyDict) (k : JValue) : Except Unit JValue :=
  if isHashable k then .ok (pyLookup d k)
  else .error ()

/-- Insert-or-overwrite in a `PyDict` under Python key equality. -/
def pyInsert (d : PyDict) (k v : JValue) : PyDict :=
  match d with
  | [] => [(k, v)]
  | p :: rest => if pyKeyEq p.1 k then (p.1, v) :: rest else p :: pyInsert rest k v

/-- `d[k] = v` on a `PyDict`: raises on an unhashable key, overwrites in
place, otherwise appends (Python dicts preserve insertion order). -/
def PyDict.set (d : PyDict) (k v : JValue) : Except Unit PyDict :=
  if isHashable k then .ok (pyInsert d k v)
  else .error ()

/-- `m.get(k, default)` on an association list with decidably equal keys (a
Python dict in insertion order). -/
def kGetD [BEq κ] (m : List (κ × α)) (k : κ) (d : α) : α :=
  match m with
  | [] => d
  | p :: rest => if p.1 == k then p.2 else kGetD rest k d

/-- `m[k] = v` on an association list with decidably equal keys: overwrite in
place or append (Python dicts preserve insertion order). -/
def kSet [BEq κ] (m : List (κ × α)) (k : κ) (v : α) : List (κ × α) :=
  match m with
  | [] => [(k, v)]
  | p :: rest => if p.1 == k then (p.1, v) :: rest else p :: kSet rest k v

/-- `m.get(k)` on a string-keyed dict (e.g. the accumulated `plan` mapping),
returning `None` when absent. -/
def sGet (m : List (String × JValue)) (k : String) : JValue :=
  kGetD m k .null

/-- `m[k] = v` on a string-keyed dict: overwrite in place or append. -/
def sSet (m : List (String × JValue)) (k : String) (v : JValue) :
    List (String × JValue) :=
  kSet m k v

/-- `obj.get(k)` on a JSON object value; `None` when the receiver is an object
without the key. Only ever applied to values already checked to be dicts. -/
def jGet (v : JValue) (k : String) : JValue :=
  match v with
  | .obj fields => sGet fields k
  | _ => .null

/-- `obj.get(k, default)` on a JSON object value. -/
def jGetD (v : JValue) (k : String) (default : JValue) : JValue :=
  match v with
  | .obj fields =>
      match fields.find? (fun p => p.1 == k) with
      | some p => p.2
      | none => default
  | _ => default

/-- `v is None`: identity with Python `None`. -/
def JValue.isNull : JValue → Bool
  | .null => true
  | _ => false

/-- Is the value a Python dict (`isinstance(x, dict)`)? -/
def JValue.isDict : JValue → Bool
  | .obj _ => true
  | _ => false

/-- Is the value a Python list (`isinstance(x, list)`)? -/
def JValue.isList : JValue → Bool
  | .arr _ => true
  | _ => false

/-- `for x in v`: iterating a list yields its elements, a string its
characters (as 1-character strings), a dict its keys; iterating any other
value raises `TypeError`. -/
def pyIter : JValue → Except Unit (List JValue)
  | .arr l => .ok l
  | .str s => .ok (s.toList.map (fun c => .str (String.mk [c])))
  | .obj fields => .ok (fields.map (fun p => .str p.1))
  | _ => .error ()

/-- `l[-m:]` for an integer `m`: the last `m` elements when `m > 0`, the whole
list when `m = 0`, and `l[(-m):]` (drop the first `-m`) when `m < 0`. -/
def pySliceFromNeg (m : Int) (l : List α) : List α :=
  if 0 < m then l.drop (l.length - m.toNat)
  else l.drop ((-m).toNat)

/-- `l[:t]` for an integer `t` (negative `t` counts from the end). -/
def pySliceTo (t : Int) (l : List α) : List α :=
  if 0 ≤ t then l.take t.toNat
  else l.take (l.length - (-t).toNat)

/-- `s.strip()` (ASCII whitespace; the Unicode extras Python also strips do
not occur in the agent's strings): drop leading and trailing whitespace. -/
def pyStrip (s : String) : String :=
  ⟨((s.data.dropWhile Char.isWhitespace).reverse.dropWhile
      Char.isWhitespace).reverse⟩

/-- JSON string escaping for the characters that need it here. -/
def jsonEscape (s : String) : String :=
  s.foldl
    (fun acc c =>
      if c = '"' then acc ++ "\\\""
      else if c = '\\' then acc ++ "\\\\"
      else if c = '\n' then acc ++ "\\n"
      else acc ++ String.mk [c])
    ""

mutual

/-- `json.dumps` with the default separators. Used only to render tool
outputs into textual tool results. -/
def pyJsonDumps : JValue → String
  | .null => "null"
  | .bool b => if b then "true" else "false"
  | .num q => toString q
  | .str s => "\"" ++ jsonEscape s ++ "\""
  | .arr l => "[" ++ String.intercalate ", " (dumpsArr l) ++ "]"
  | .obj fields => "\x7b" ++ String.intercalate ", " (dumpsObj fields) ++ "\x7d"

/-- Renders the elements of a JSON array. -/
def dumpsArr : List JValue → List String
  | [] => []
  | v :: rest => pyJsonDumps v :: dumpsArr rest

/-- Renders the key/value pairs of a JSON object. -/
def dumpsObj : List (String × JValue) → List String
  | [] => []
  | (k, v) :: rest =>
      ("\"" ++ jsonEscape k ++ "\": " ++ pyJsonDumps v) :: dumpsObj rest

end

/-- `str(v)` as interpolated into an f-string. Only string values reach this
in practice (the stored plan summary); other values are rendered
JSON-style as an approximation of `repr`. -/
def pyStr : JValue → String
  | .str s => s
  | v => pyJsonDumps v

/-- A model-response content block, as read through `_block_attr`
(`getattr(block, attr, None)` / `dict.get`): an absent attribute reads as
`none`. Per the Model Gateway interface (spec section 6) a block is either
`{type:"text", text}` or `{type:"tool_use", id, name, input}`. -/
structure Block where
  type : Option String
  id : Option String
  name : Option String
  input : Option JValue
  text : Option String
deriving Repr

/-- A text block `{"type": "text", "text": s}`. -/
def textBlock (s : String) : Block := ⟨some "text", none, none, none, some s⟩

/-- A gateway response: an object with an ordered `content` block list. -/
structure Response where
  content : List Block
deriving Repr

/-- `_block_type(block)`. -/
def _block_type (block : Block) : Option String := block.type

/-- One entry of a round's tool-results payload:
`{"type": "tool_result", "tool_use_id": id, "content": [{"type": "text",
"text": s}]}`. -/
structure ToolResultPayload where
  tool_use_id : Option String
  text : String
deriving Repr

/-- The content of a transcript message: either gateway content blocks or a
round's tool-results payload. -/
inductive MsgContent where
  | blocks : List Block → MsgContent
  | results : List ToolResultPayload → MsgContent
deriving Repr

/-- One transcript message `{"role": ..., "content": ...}`. -/
structure Msg where
  role : String
  content : MsgContent
deriving Repr

/-- memory.py `MemoryMessage`: role plus content blocks. -/
structure MemoryMessage where
  role : String
  content : List Block
deriving Repr

/-- Lookup with default in a string-keyed association list
(`m.get(k, default)`). -/
def aGetD (m : List (String × α)) (k : String) (v : α) : α :=
  kGetD m k v

/-- Insert-or-overwrite in a string-keyed association list (`m[k] = v`). -/
def aSet (m : List (String × α)) (k : String) (v : α) : List (String × α) :=
  kSet m k v

/-- memory.py `InMemoryConversationMemory`: per-conversation message lists
and per-conversation state maps. `max_messages` is an `Int` (a Python int;
the constructor default is 50). -/
structure InMemoryConversationMemory where
  max_messages : Int
  _messages : List (String × List MemoryMessage)
  _state : List (String × List (String × JValue))

/-- A fresh `InMemoryConversationMemory(max_messages)`. -/
def InMemoryConversationMemory.mk0 (max_messages : Int) :
    InMemoryConversationMemory :=
  ⟨max_messages, [], []⟩

/-- `get_history`: `list(self._messages.get(conversation_id, []))`. -/
def get_history (mem : InMemoryConversationMemory) (conversation_id : String) :
    List MemoryMessage :=
  aGetD mem._messages conversation_id []

/-- `append_message`: append, then trim to the last `max_messages` entries
(`history[-self.max_messages:]`) whenever the length exceeds the cap. -/
def append_message (mem : InMemoryConversationMemory) (conversation_id : String)
    (message : MemoryMessage) : InMemoryConversationMemory :=
  let history := aGetD mem._messages conversation_id []
  let history := history ++ [message]
  let history :=
    if (history.length : Int) > mem.max_messages then
      pySliceFromNeg mem.max_messages history
    else history
  { mem with _messages := aSet mem._messages conversation_id history }

/-- `get_state`: `dict(self._state.get(conversation_id, {}))`. -/
def get_state (mem : InMemoryConversationMemory) (conversation_id : String) :
    List (String × JValue) :=
  aGetD mem._state conversation_id []

/-- `update_state`: shallow-merge `new_state` into the stored state. -/
def update_state (mem : InMemoryConversationMemory) (conversation_id : String)
    (new_state : List (String × JValue)) : InMemoryConversationMemory :=
  let current := aGetD mem._state conversation_id []
  let current := new_state.foldl (fun c p => sSet c p.1 p.2) current
  { mem with _state := aSet mem._state conversation_id current }

/-- memory.py `to_claude_messages`: stored messages as gateway payload. -/
def to_claude_messages (history : List MemoryMessage) : List Msg :=
  history.map (fun m => ⟨m.role, .blocks m.content⟩)

/-- Pydantic-style validation of an `int` field: an integer-valued number. -/
def asIntField : JValue → Option Int
  | .num q => if q.den = 1 then some q.num else none
  | _ => none

/-- Pydantic-style validation of a `float` field: any number. -/
def asFloatField : JValue → Option Rat
  | .num q => some q
  | _ => none

/-- Pydantic-style validation of a `str` field. -/
def asStrField : JValue → Option String
  | .str s => some s
  | _ => none

/-- Modelled from the spec: the `DayPlan` pydantic model is imported by
agent.py from models/schemas.py but missing from the available source. Spec
section 3: a DayPlan is \x7bday, start, end, distance_km, accommodation?,
weather?, elevation?, points_of_interest?, visa?, notes\x7d. The optional
fields hold raw tool-output JSON; `JValue.null` is an unset field. `end` is a
Lean keyword, hence `end_`. -/
structure DayPlan where
  day : Int
  start : String
  end_ : String
  distance_km : Rat
  accommodation : JValue
  weather : JValue
  elevation : JValue
  points_of_interest : JValue
  visa : JValue
  notes : String
deriving Repr

/-- Modelled from the spec: pydantic validation of the `DayPlan(...)`
constructor call on untyped JSON in `_build_trip_plan` — `day` must be an
integer day index, `start`/`end`/`notes` strings, `distance_km` a number;
the optional fields accept anything. `none` is a raised `ValidationError`. -/
def mkDayPlan (day start end_ distance_km accommodation weather elevation
    points_of_interest visa notes : JValue) : Option DayPlan := do
  let d ← asIntField day
  let s ← asStrField start
  let e ← asStrField end_
  let dist ← asFloatField distance_km
  let n ← asStrField notes
  pure ⟨d, s, e, dist, accommodation, weather, elevation, points_of_interest,
        visa, n⟩

/-- `day.model_dump()` for a `DayPlan`. -/
def DayPlan.model_dump (d : DayPlan) : JValue :=
  .obj [("day", .num (d.day : Rat)), ("start", .str d.start),
        ("end", .str d.end_), ("distance_km", .num d.distance_km),
        ("accommodation", d.accommodation), ("weather", d.weather),
        ("elevation", d.elevation),
        ("points_of_interest", d.points_of_interest), ("visa", d.visa),
        ("notes", .str d.notes)]

/-- Modelled from the spec: the `TripPlan` pydantic model (spec section 3):
\x7btotal_distance_km, days, itinerary, budget\x7d. `budget` holds raw JSON
(`JValue.null` when unset). -/
structure TripPlan where
  total_distance_km : Rat
  days : Int
  itinerary : List DayPlan
  budget : JValue
deriving Repr

/-- Modelled from the spec: a note override \x7bday, notes\x7d
(spec section 3, Adjustments). -/
structure DayNoteOverride where
  day : Int
  notes : String
deriving Repr

/-- Modelled from the spec: `Adjustments` —
\x7btarget_days?: int, note_overrides?: ordered sequence of
\x7bday, notes\x7d\x7d (spec section 3). -/
structure Adjustments where
  target_days : Option Int
  note_overrides : Option (List DayNoteOverride)
deriving Repr

/-- Modelled from the spec: the structured-output shape (spec section 4.3)
\x7breply: string, questions: list of strings, adjustments?\x7d plus the
`tool_calls` field the finalizer reads; fields a parse may leave unset are
options. -/
structure ChatLLMResponse where
  reply : Option String
  questions : Option (List String)
  tool_calls : Option (List String)
  adjustments : Option Adjustments
deriving Repr

/-- Modelled from the spec: `BudgetRequest` — "days (optional if itinerary is
known), currency, nightly_budget, food_per_day, incidentals_per_day,
travelers" (tool description in agent.py), all optional. -/
structure BudgetRequest where
  days : Option Int
  currency : Option String
  nightly_budget : Option Rat
  food_per_day : Option Rat
  incidentals_per_day : Option Rat
  travelers : Option Int
deriving Repr

/-- `BudgetRequest(days=v)` with every other field left `None`: validates
`days` as an optional integer (`None` stays unset). -/
def mkBudgetRequestDays (v : JValue) : Option BudgetRequest :=
  match v with
  | .null => some ⟨none, none, none, none, none, none⟩
  | .num q =>
      if q.den = 1 then some ⟨some q.num, none, none, none, none, none⟩
      else none
  | _ => none

/-- Python `round(x, 2)`, idealized over exact rationals (half to even). -/
def pyRound2 (q : Rat) : Rat :=
  let s := q * 100
  let f := ⌊s⌋
  let r := s - f
  let n : Int :=
    if r < 1/2 then f
    else if 1/2 < r then f + 1
    else if Even f then f else f + 1
  (n : Rat) / 100

/-- budget.py `_normalize_currency`. -/
def _normalize_currency (cur : Option String) : String :=
  match cur with
  | none => "USD"
  | some c =>
      if c = "" then "USD"
      else
        let c := c.toUpper
        if c.length = 3 ∨ c.length = 4 then c else "USD"

/-- budget.py `_avg_lodging_cost`, as reached from the assembler's budget
fallback: its argument is `model_dump`ped JSON, so each iterated element is a
JSON value with no `price_per_night` attribute and the attribute access
raises `AttributeError`; a falsy argument returns `None` before that. -/
def _avg_lodging_cost (accommodation : JValue) : Except Unit (Option Rat) :=
  if !pyTruthy accommodation then .ok none
  else do
    let elems ← pyIter accommodation
    match elems with
    | [] => .ok none
    | _ => .error ()

/-- budget.py `estimate_budget`, as invoked by the assembler fallback
(`BudgetRequest` with only `days` possibly set, itinerary of
`DayPlan.model_dump`s). Returns the `model_dump` of the `BudgetResponse`. -/
def estimate_budget (req : BudgetRequest) (itinerary : List JValue) :
    Except Unit JValue := do
  let currency := _normalize_currency req.currency
  let days : Int :=
    match req.days with
    | some d => if d ≠ 0 then d else (if itinerary.isEmpty then 1 else itinerary.length)
    | none => if itinerary.isEmpty then 1 else itinerary.length
  let nightly_budget : Rat :=
    match req.nightly_budget with
    | some b => if b ≠ 0 then b else 70
    | none => 70
  let food_per_day : Rat :=
    match req.food_per_day with
    | some b => if b ≠ 0 then b else 40
    | none => 40
  let incidentals_per_day : Rat :=
    match req.incidentals_per_day with
    | some b => if b ≠ 0 then b else 15
    | none => 15
  let travelers : Int :=
    max 1 (match req.travelers with
           | some t => if t ≠ 0 then t else 1
           | none => 1)
  let lodging_total : Rat ←
    if !itinerary.isEmpty then
      itinerary.foldlM
        (fun (acc : Rat) day => do
          let accom := if day.isDict then jGet day "accommodation" else .null
          let avg ← if pyTruthy accom then _avg_lodging_cost accom else pure none
          pure (acc + avg.getD nightly_budget))
        (0 : Rat)
    else
      pure (nightly_budget * (days : Rat))
  let food_total := food_per_day * (days : Rat) * (travelers : Rat)
  let incidentals_total := incidentals_per_day * (days : Rat) * (travelers : Rat)
  let buffer_total := max 0 ((5 / 100 : Rat) * (lodging_total + food_total + incidentals_total))
  let total := lodging_total + food_total + incidentals_total + buffer_total
  let per_day : Option Rat := if days ≠ 0 then some (total / (days : Rat)) else none
  let breakdown := JValue.obj
    [("lodging_total", .num (pyRound2 lodging_total)),
     ("food_total", .num (pyRound2 food_total)),
     ("incidentals_total", .num (pyRound2 incidentals_total)),
     ("buffer_total", .num (pyRound2 buffer_total))]
  .ok (JValue.obj
    [("currency", .str currency),
     ("total", .num (pyRound2 total)),
     ("per_day",
       match per_day with
       | some p => if p ≠ 0 then JValue.num (pyRound2 p) else .null
       | none => .null),
     ("breakdown", breakdown),
     ("notes", .str "Mocked budget estimate; costs are approximate and exclude transportation to/from start.")])

/-- Outcome of one `_execute_tool` invocation on a registered tool. The
typed-input validation and the tool executor are external collaborators
(spec sections 1 and 6, "each independently fallible"), so the outcome is an
oracle: success with an output, a pydantic `ValidationError`, or any other
exception. -/
inductive ExecOutcome where
  | ok : JValue → ExecOutcome
  | vError : String → ExecOutcome
  | exError : String → ExecOutcome

/-- The external collaborators of one `chat` turn. `llm k` is the outcome of
the (k+1)-th primary gateway call (`_call_llm`; `.error` = Model Gateway
failure, e.g. no client). `exec k` is the outcome of the (k+1)-th
`_execute_tool` invocation on a registered tool. `cb` is the optional
progress callback; its value at an emission index says whether that call
raises. `structured` is the structured gateway call's outcome (`.error` =
Model Gateway failure — the missing-client check precedes the try block;
`.ok none` = any parse failure, swallowed by `_call_llm_structured`). -/
structure Env where
  llm : Nat → Except Unit Response
  exec : Nat → ExecOutcome
  cb : Option (Nat → Except Unit Unit)
  structured : Except Unit (Option ChatLLMResponse)

/-- The tool registry keys (agent.py `self.tools`). -/
def registryNames : List String :=
  ["get_route", "find_accommodation", "get_weather", "get_elevation_profile",
   "get_points_of_interest", "check_visa_requirements", "estimate_budget"]

/-- agent.py `_execute_tool` on a named call: an unknown name raises
`ValueError` before any validation or execution (the loop catches it in the
generic handler); a known name consults the executor oracle, consuming one
oracle index. -/
def _execute_tool (env : Env) (k : Nat) (name : String) : ExecOutcome × Nat :=
  if registryNames.contains name then (env.exec k, k + 1)
  else (.exError ("Unknown tool requested: " ++ name), k)

/-- agent.py `_emit_progress`: runs the callback when present; any exception
the callback raises is absorbed ("Progress updates should never break core
flow"). `k` numbers the emissions within a phase (the payloads themselves are
not modelled: they are only ever seen by the callback). -/
def _emit_progress (cb : Option (Nat → Except Unit Unit)) (k : Nat) :
    Except Unit Unit :=
  match cb with
  | none => .ok ()
  | some f =>
      match f k with
      | .ok _ => .ok ()
      | .error _ => .ok ()

/-- agent.py lines 495-502: merge one successful tool output into the
accumulated plan — first output stored bare, a second promotes the entry to a
two-element list, later ones append. -/
def mergePlan (plan : List (String × JValue)) (call_name : String)
    (output : JValue) : List (String × JValue) :=
  match sGet plan call_name with
  | .arr l => sSet plan call_name (.arr (l ++ [output]))
  | .null => sSet plan call_name output
  | existing => sSet plan call_name (.arr [existing, output])

/-- The synthesized tool result for an empty/missing input. -/
def missingFieldsResult (call_name : String) (call_id : Option String) :
    ToolResultPayload :=
  ⟨call_id, "Missing required fields for " ++ call_name ++ "; skipping tool call."⟩

/-- The synthesized tool result for a schema-validation failure. -/
def validationErrorResult (call_name : String) (call_id : Option String)
    (msg : String) : ToolResultPayload :=
  ⟨call_id, "Validation failed for " ++ call_name ++ ": " ++ msg⟩

/-- The synthesized tool result for any other execution failure. -/
def executionErrorResult (call_name : String) (call_id : Option String)
    (msg : String) : ToolResultPayload :=
  ⟨call_id, "Execution failed for " ++ call_name ++ ": " ++ msg⟩

/-- The tool result carrying a successful output (`json.dumps(output)`). -/
def okResult (call_id : Option String) (output : JValue) : ToolResultPayload :=
  ⟨call_id, pyJsonDumps output⟩

/-- Whether a content block is a tool-invocation block. -/
def isToolUse (b : Block) : Bool := _block_type b == some "tool_use"

/-- Result of processing one tool-invocation block: updated plan, the
`ToolResult` emitted for the block (if any), and advanced oracle indices. -/
structure CallOut where
  plan : List (String × JValue)
  result : Option ToolResultPayload
  execIdx : Nat
  cbIdx : Nat

/-- `call_input = self._block_attr(call, "input") or {}`. -/
def callInputOf (call : Block) : JValue :=
  match call.input with
  | some v => if pyTruthy v then v else .obj []
  | none => .obj []

/-- One iteration of the per-call loop in `_run_tool_loop`
(agent.py lines 425-518). -/
def processCall (env : Env) (plan : List (String × JValue))
    (execIdx cbIdx : Nat) (call : Block) : Except Unit CallOut := do
  let call_name := call.name
  let call_id := call.id
  let call_input : JValue := callInputOf call
  match call_name with
  | none => pure ⟨plan, none, execIdx, cbIdx⟩
  | some nm =>
      if nm = "" then pure ⟨plan, none, execIdx, cbIdx⟩
      else do
        let _ ← _emit_progress env.cb cbIdx
        let cbIdx := cbIdx + 1
        if !pyTruthy call_input then do
          let _ ← _emit_progress env.cb cbIdx
          pure ⟨plan, some (missingFieldsResult nm call_id), execIdx, cbIdx + 1⟩
        else
          match _execute_tool env execIdx nm with
          | (.vError msg, k') => do
              let _ ← _emit_progress env.cb cbIdx
              pure ⟨plan, some (validationErrorResult nm call_id msg), k', cbIdx + 1⟩
          | (.exError msg, k') => do
              let _ ← _emit_progress env.cb cbIdx
              pure ⟨plan, some (executionErrorResult nm call_id msg), k', cbIdx + 1⟩
          | (.ok output, k') => do
              let _ ← _emit_progress env.cb cbIdx
              pure ⟨mergePlan plan nm output, some (okResult call_id output), k', cbIdx + 1⟩

/-- Result of one round's per-call loop: updated plan, the round's
accumulated `tool_results_payload`, and advanced oracle indices. -/
structure RoundOut where
  plan : List (String × JValue)
  payload : List ToolResultPayload
  execIdx : Nat
  cbIdx : Nat

/-- One step of the round's per-call loop: process the next block and append
its `ToolResult` (when one was emitted) to the round's payload. -/
def processCallsStep (env : Env) (acc : RoundOut) (call : Block) :
    Except Unit RoundOut := do
  let out ← processCall env acc.plan acc.execIdx acc.cbIdx call
  pure ⟨out.plan, acc.payload ++ out.result.toList, out.execIdx, out.cbIdx⟩

/-- The per-call loop of one round, over the round's tool-invocation blocks
in response order. -/
def processCalls (env : Env) (plan : List (String × JValue))
    (execIdx cbIdx : Nat) (calls : List Block) : Except Unit RoundOut :=
  calls.foldlM (processCallsStep env) ⟨plan, [], execIdx, cbIdx⟩

/-- agent.py `max_rounds = 4  # primary safeguard`. -/
def max_rounds : Nat := 4

/-- agent.py `cleanup_rounds = 2  # limited retries to clear dangling tool_use`. -/
def cleanup_rounds : Nat := 2

/-- agent.py `total_rounds_allowed = max_rounds + cleanup_rounds`. -/
def total_rounds_allowed : Nat := max_rounds + cleanup_rounds

/-- The Python locals of `_run_tool_loop`, plus the oracle indices. -/
structure LoopState where
  messages : List Msg
  plan : List (String × JValue)
  tool_round : Nat
  tool_calls : List Block
  last_response : Response
  llmIdx : Nat
  execIdx : Nat
  cbIdx : Nat

/-- The `while tool_round < total_rounds_allowed` loop of `_run_tool_loop`.
`fuel` is `total_rounds_allowed - tool_round`: each iteration that processes
tool calls increments `tool_round` by exactly one, so the Python guard and
the fuel coincide. -/
def loopRounds (env : Env) : Nat → LoopState → Except Unit LoopState
  | 0, st => .ok st
  | fuel + 1, st => do
      let tcs := st.last_response.content.filter isToolUse
      let st := { st with tool_calls := tcs }
      if tcs.isEmpty then do
        let _ ← _emit_progress env.cb st.cbIdx
        .ok { st with cbIdx := st.cbIdx + 1 }
      else
        let st := { st with tool_round := st.tool_round + 1 }
        match processCalls env st.plan st.execIdx st.cbIdx tcs with
        | .error e => .error e
        | .ok rnd =>
            let msgs := st.messages ++
              [⟨"assistant", .blocks st.last_response.content⟩,
               ⟨"user", .results rnd.payload⟩]
            match env.llm st.llmIdx with
            | .error e => .error e
            | .ok resp => do
                let _ ← _emit_progress env.cb rnd.cbIdx
                loopRounds env fuel
                  ⟨msgs, rnd.plan, st.tool_round, tcs, resp,
                   st.llmIdx + 1, rnd.execIdx, rnd.cbIdx + 1⟩

/-- agent.py `_run_tool_loop`: initial gateway call, the bounded round loop,
then the dangling-`tool_use` strip. Returns the full final state; the Python
function returns its projection (messages, plan, last_response, tool_calls). -/
def _run_tool_loop (env : Env) (messages : List Msg) : Except Unit LoopState := do
  let lr ← env.llm 0
  let _ ← _emit_progress env.cb 0
  let st ← loopRounds env total_rounds_allowed ⟨messages, [], 0, [], lr, 1, 0, 1⟩
  let dangling := st.last_response.content.filter isToolUse
  let st ←
    if !dangling.isEmpty then do
      let cleaned := st.last_response.content.filter (fun b => !isToolUse b)
      let _ ← _emit_progress env.cb st.cbIdx
      pure { st with last_response := ⟨cleaned⟩, cbIdx := st.cbIdx + 1 }
    else pure st
  let _ ← _emit_progress env.cb st.cbIdx
  pure { st with cbIdx := st.cbIdx + 1 }

/-- Insert-or-overwrite in an integer-keyed association list (the
`override_map` dict of `_apply_adjustments`). -/
def iSet (m : List (Int × String)) (k : Int) (v : String) :
    List (Int × String) :=
  kSet m k v

/-- The note-override stage of `_apply_adjustments` (agent.py lines
94-106): build `override_map` from the override list in order (later entries
overwrite), then overwrite `notes` for every itinerary day the map names.
Note overrides are the typed shape of spec section 3 (the source also
tolerates raw \x7bday, notes\x7d dicts, which carry the same two fields). -/
def applyNoteOverrides (trip_plan : TripPlan) (adjustments : Adjustments) :
    TripPlan :=
  match adjustments.note_overrides with
  | none => trip_plan
  | some overrides =>
      if overrides.isEmpty then trip_plan
      else
        let override_map : List (Int × String) :=
          overrides.foldl (fun m item => iSet m item.day item.notes) []
        let updated_itinerary := trip_plan.itinerary.map (fun day =>
          match override_map.find? (fun p => p.1 == day.day) with
          | some p => { day with notes := p.2 }
          | none => day)
        { trip_plan with itinerary := updated_itinerary }

/-- The day-count stage of `_apply_adjustments` (agent.py lines 108-131):
growing appends DayPlans cloned from the last endpoint with zero distance and
a generic note (visa read from the current head each iteration), shrinking
truncates; `target_days` of 0 is falsy and does nothing. -/
def applyTargetDays (trip_plan : TripPlan) (adjustments : Adjustments) :
    TripPlan :=
  match adjustments.target_days with
  | none => trip_plan
  | some target =>
      if target = 0 then trip_plan
      else
        let current := trip_plan.days
        if target > current then
          let last_end :=
            match trip_plan.itinerary.getLast? with
            | some d => d.end_
            | none => ""
          let trip_plan :=
            (List.range (target - current).toNat).foldl
              (fun tp i =>
                let idx : Int := current + 1 + (i : Int)
                { tp with itinerary := tp.itinerary ++
                    [⟨idx, last_end, last_end, 0, .null, .null, .null, .null,
                      (match tp.itinerary.head? with
                       | some d0 => d0.visa
                       | none => .null),
                      "Additional day added per adjustments."⟩] })
              trip_plan
          { trip_plan with days := target }
        else if target < current then
          { trip_plan with itinerary := pySliceTo target trip_plan.itinerary,
                           days := target }
        else trip_plan

/-- agent.py `_apply_adjustments`: note overrides first, then the day-count
change. The call site only reaches it with an actual `Adjustments` instance
(pydantic models are always truthy), so the opening `if not adjustments`
guard never fires. -/
def _apply_adjustments (trip_plan : TripPlan) (adjustments : Adjustments) :
    TripPlan :=
  applyTargetDays (applyNoteOverrides trip_plan adjustments) adjustments

/-- `entry.get(k)` where `entry` may be any value: a non-dict receiver has no
`.get` attribute and raises `AttributeError`. -/
def jGetE (v : JValue) (k : String) : Except Unit JValue :=
  match v with
  | .obj fields => .ok (sGet fields k)
  | _ => .error ()

/-- `plan.get(name)` normalized to a Python list as in `_build_trip_plan`:
`None` becomes `[]`, a non-list is wrapped in a singleton. -/
def normalizedToolData (plan : List (String × JValue)) (name : String) :
    List JValue :=
  match sGet plan name with
  | .null => []
  | .arr l => l
  | v => [v]

/-- The `segments` extraction of `_build_trip_plan`:
`route_data.get("segments") or []`. -/
def segmentsOf (route_data : JValue) : JValue :=
  if pyTruthy (jGet route_data "segments") then jGet route_data "segments"
  else .arr []

/-- `accom_by_day` (agent.py lines 147-152): normalize, then index the
accommodation entries by day. -/
def accomByDay (plan : List (String × JValue)) : Except Unit PyDict :=
  (normalizedToolData plan "find_accommodation").foldlM
    (fun d item =>
      if item.isDict then d.set (jGet item "day") (jGet item "options")
      else pure d)
    ([] : PyDict)

/-- `weather_by_day` (agent.py lines 154-166): index the daily weather
entries by day. -/
def weatherByDay (plan : List (String × JValue)) : Except Unit PyDict :=
  (normalizedToolData plan "get_weather").foldlM
    (fun d item => do
      if item.isDict then
        let daily := (fun x => if pyTruthy x then x else .arr []) (jGet item "daily")
        let entries ← pyIter daily
        entries.foldlM
          (fun d entry => do
            let day_idx ← jGetE entry "day"
            if !day_idx.isNull then d.set day_idx entry else pure d)
          d
      else pure d)
    ([] : PyDict)

/-- `elevation_by_day` (agent.py lines 168-180): index the elevation-profile
entries by day. -/
def elevationByDay (plan : List (String × JValue)) : Except Unit PyDict :=
  (normalizedToolData plan "get_elevation_profile").foldlM
    (fun d item => do
      if item.isDict then
        let profiles := (fun x => if pyTruthy x then x else .arr []) (jGet item "profile")
        let entries ← pyIter profiles
        entries.foldlM
          (fun d entry => do
            let day_idx ← jGetE entry "day"
            if !day_idx.isNull then d.set day_idx entry else pure d)
          d
      else pure d)
    ([] : PyDict)

/-- `poi_by_day` (agent.py lines 182-192): index the POI entries by day. -/
def poiByDay (plan : List (String × JValue)) : Except Unit PyDict :=
  (normalizedToolData plan "get_points_of_interest").foldlM
    (fun d item => do
      if item.isDict then
        let day_idx := jGet item "day"
        if !day_idx.isNull then d.set day_idx (jGet item "pois") else pure d
      else pure d)
    ([] : PyDict)

/-- `visa_req` (agent.py lines 194-198). -/
def visaReqOf (plan : List (String × JValue)) : JValue :=
  let visa_data := sGet plan "check_visa_requirements"
  if visa_data.isDict then jGet visa_data "requirement" else .null

/-- The itinerary loop of `_build_trip_plan` (agent.py lines 203-226):
one DayPlan per route segment carrying an integer day index, looking up the
per-day maps; a pydantic validation failure raises. -/
def buildItinerary (segs : List JValue)
    (accom_by_day weather_by_day elevation_by_day poi_by_day : PyDict)
    (visa_req : JValue) : Except Unit (List DayPlan) :=
  segs.foldlM
    (fun itin seg => do
      if !seg.isDict then pure itin
      else
        let day_idx := jGet seg "day"
        if day_idx.isNull then pure itin
        else
          let note_val := jGet seg "notes"
          let note_val :=
            if !pyTruthy note_val then JValue.str "Continue along secondary roads."
            else note_val
          let accom ← accom_by_day.get day_idx
          let weather ← weather_by_day.get day_idx
          let elev ← elevation_by_day.get day_idx
          let pois ← poi_by_day.get day_idx
          match mkDayPlan day_idx (jGetD seg "start" (.str ""))
              (jGetD seg "end" (.str "")) (jGetD seg "distance_km" (.num 0))
              accom weather elev pois visa_req note_val with
          | some d => pure (itin ++ [d])
          | none => .error ())
    ([] : List DayPlan)

/-- The budget fallback of `_build_trip_plan` (agent.py lines 231-239):
synthesize a budget when none accumulated; any exception is swallowed and
leaves the budget unset. -/
def budgetFallback (budget_resp : JValue) (route_data : JValue)
    (itinerary : List DayPlan) : JValue :=
  if !pyTruthy budget_resp then
    match (do
        let req ←
          match mkBudgetRequestDays (jGet route_data "days") with
          | some r => Except.ok r
          | none => Except.error ()
        estimate_budget req (itinerary.map DayPlan.model_dump) :
        Except Unit JValue) with
    | .ok b => b
    | .error _ => JValue.null
  else budget_resp

/-- Insert into a day-sorted list, after any existing day that is `≤` the
new one (preserving the original relative order of equal days). -/
def insertByDay (d : DayPlan) : List DayPlan → List DayPlan
  | [] => [d]
  | x :: xs => if d.day ≤ x.day then d :: x :: xs else x :: insertByDay d xs

/-- Python's stable `sorted(itinerary, key=lambda d: d.day)`, as a stable
insertion sort: both produce the unique stable ascending reordering. -/
def sortedByDay : List DayPlan → List DayPlan
  | [] => []
  | x :: xs => insertByDay x (sortedByDay xs)

/-- agent.py `_build_trip_plan`, given a route value already normalized from
the accumulated plan (a promoted list replaced by its first element). -/
def buildTripPlanWithRoute (route_data : JValue)
    (plan : List (String × JValue)) : Except Unit (Option TripPlan) := do
  if !route_data.isDict then
    return none
  let segments := segmentsOf route_data
  let accom_by_day ← accomByDay plan
  let weather_by_day ← weatherByDay plan
  let elevation_by_day ← elevationByDay plan
  let poi_by_day ← poiByDay plan
  let visa_req := visaReqOf plan
  let budget_data := sGet plan "estimate_budget"
  let budget_resp := if budget_data.isDict then budget_data else .null
  let segs ← pyIter segments
  let itinerary ← buildItinerary segs accom_by_day weather_by_day
    elevation_by_day poi_by_day visa_req
  if itinerary.isEmpty then
    return none
  let budget_resp := budgetFallback budget_resp route_data itinerary
  match asFloatField (jGetD route_data "total_distance_km" (.num 0)),
        asIntField (jGetD route_data "days" (.num (itinerary.length : Rat))) with
  | some td, some ds =>
      return some ⟨td, ds, sortedByDay itinerary, budget_resp⟩
  | _, _ => .error ()

/-- The `get_route` normalization of `_build_trip_plan` (lines 140-142): a
promoted list is replaced by its first accumulated output (`None` when the
list is empty). -/
def routeDataOf (plan : List (String × JValue)) : JValue :=
  match sGet plan "get_route" with
  | .arr l => (match l.head? with | some x => x | none => .null)
  | v => v

/-- agent.py `_build_trip_plan` (lines 135-246). -/
def _build_trip_plan (plan : List (String × JValue)) :
    Except Unit (Option TripPlan) :=
  buildTripPlanWithRoute (routeDataOf plan) plan

/-- The tuple `_finalize_response` returns. -/
structure FinalOut where
  reply_text : String
  trip_plan : Option TripPlan
  questions : Option (List String)
  tool_calls_structured : Option (List String)

/-- Python truthiness of the `questions` value (`None`, or a possibly empty
list of strings). -/
def questionsTruthy : Option (List String) → Bool
  | none => false
  | some l => !l.isEmpty

/-- agent.py `_finalize_response`. The transcript argument is consumed only
by the structured gateway call, whose outcome the environment supplies, so it
is not a parameter here. Returns the result tuple and the advanced
callback-emission index. -/
def _finalize_response (env : Env) (last_response : Response)
    (plan : List (String × JValue)) (tool_calls : List Block) (cbIdx : Nat) :
    Except Unit (FinalOut × Nat) := do
  let _ ← _emit_progress env.cb cbIdx
  let cbIdx := cbIdx + 1
  let structured ← env.structured
  let trip_plan ← _build_trip_plan plan
  let (reply_text, questions, tool_calls_structured, adjustments) :=
    match structured with
    | some s =>
        ((match s.reply with | some r => r | none => ""),
         s.questions, s.tool_calls, s.adjustments)
    | none =>
        let fallback_text := pyStrip (String.join
          (last_response.content.filterMap (fun block =>
            if _block_type block == some "text" then
              some (match block.text with | some t => t | none => "")
            else none)))
        (fallback_text, none, none, none)
  let trip_plan :=
    match trip_plan, adjustments with
    | some tp, some adj => some (_apply_adjustments tp adj)
    | tp, _ => tp
  let _ ← _emit_progress env.cb cbIdx
  let cbIdx := cbIdx + 1
  let needsDetails :=
    trip_plan.isNone && tool_calls.isEmpty && !questionsTruthy questions
  let questions :=
    if needsDetails then
      some
        ["What are your start and end locations?",
         "How many kilometers per day would you like to ride?",
         "What dates are you targeting?",
         "Any accommodation preferences or budget?",
         "Any weather conditions to avoid?"]
    else questions
  let reply_text :=
    if needsDetails then
      if reply_text = "" then
        "I need a few details before planning. Please clarify."
      else reply_text
    else reply_text
  let reply_text :=
    if reply_text = "" then
      if questionsTruthy questions then "Could you clarify a few points?"
      else if !plan.isEmpty then
        "Here is a plan, let me know if you want modifications :\n"
      else
        "I wasn't able to produce a reply. Please try again or provide more detail."
    else reply_text
  pure (⟨reply_text, trip_plan, questions, tool_calls_structured⟩, cbIdx)

/-- agent.py `_build_initial_messages`: prior history, an injected
plan-summary assistant turn when one is stored, then the new user message. -/
def _build_initial_messages (mem : InMemoryConversationMemory)
    (conversation_id : String) (user_message : String) :
    List Msg × MemoryMessage :=
  let prior := get_history mem conversation_id
  let prior_state := get_state mem conversation_id
  let last_plan_summary := sGet prior_state "last_plan_summary"
  let user_msg : MemoryMessage := ⟨"user", [textBlock user_message]⟩
  let messages := to_claude_messages prior
  let messages :=
    if pyTruthy last_plan_summary then
      messages ++ [⟨"assistant",
        .blocks [textBlock ("Previous plan summary:\n" ++ pyStr last_plan_summary)]⟩]
    else messages
  (messages ++ [⟨user_msg.role, .blocks user_msg.content⟩], user_msg)

/-- The dict `chat` returns. -/
structure ChatResult where
  conversation_id : String
  reply : String
  triplan : Option TripPlan
  questions : Option (List String)
  tool_calls : Option (List String)

/-- agent.py `chat`: one full turn. Returns the API result together with the
updated memory (`self.memory` writes). -/
def chat (env : Env) (mem : InMemoryConversationMemory)
    (conversation_id : String) (user_message : String) :
    Except Unit (ChatResult × InMemoryConversationMemory) := do
  let _ ← _emit_progress env.cb 0
  let (messages, user_msg) := _build_initial_messages mem conversation_id user_message
  let st ← _run_tool_loop env messages
  let (fin, cbIdx) ← _finalize_response env st.last_response st.plan st.tool_calls 0
  let assistant_msg : MemoryMessage := ⟨"assistant", [textBlock fin.reply_text]⟩
  let mem := append_message mem conversation_id user_msg
  let mem := append_message mem conversation_id assistant_msg
  let mem :=
    match fin.trip_plan with
    | some _ =>
        let plan_summary :=
          if fin.reply_text != "" then fin.reply_text
          else pyJsonDumps (.obj st.plan)
        update_state mem conversation_id [("last_plan_summary", .str plan_summary)]
    | none => mem
  let _ ← _emit_progress env.cb cbIdx
  pure (⟨conversation_id, fin.reply_text, fin.trip_plan, fin.questions,
         fin.tool_calls_structured⟩, mem)

/-! ### Generic lemmas about the embedded Python primitives -/

theorem kGetD_kSet [BEq κ] [LawfulBEq κ] (m : List (κ × α)) (k k' : κ)
    (v d : α) :
    kGetD (kSet m k v) k' d = if k' == k then v else kGetD m k' d := by
  induction m with
  | nil =>
      by_cases h : k' = k
      · subst h; simp [kGetD, kSet]
      · have h1 : ¬ (k == k') = true := fun hc => h (eq_of_beq hc).symm
        have h2 : ¬ (k' == k) = true := fun hc => h (eq_of_beq hc)
        simp [kGetD, kSet, h1, h2]
  | cons x xs ih =>
      by_cases hx : x.1 == k
      · have hx' : x.1 = k := eq_of_beq hx
        by_cases h : k' == k
        · have h' : k' = k := eq_of_beq h
          simp [kGetD, kSet, hx, hx', h, h']
        · have h' : ¬ x.1 == k' := by
            intro hc
            exact absurd (by rw [← eq_of_beq hc, hx']; exact beq_self_eq_true k) h
          simp [kGetD, kSet, hx, h, h']
      · by_cases hk' : x.1 == k'
        · have h : ¬ k' == k := by
            intro hc
            exact hx (by rw [show x.1 = k' from eq_of_beq hk']; exact hc)
          simp [kGetD, kSet, hx, hk', h]
        · simp [kGetD, kSet, hx, hk', ih]

theorem pySliceFromNeg_pos (m : Int) (hm : 0 < m) (l : List α) :
    pySliceFromNeg m l = l.drop (l.length - m.toNat) := by
  simp [pySliceFromNeg, hm]

theorem pySliceFromNeg_length_le (m : Int) (hm : 0 < m) (l : List α) :
    (pySliceFromNeg m l).length ≤ m.toNat := by
  rw [pySliceFromNeg_pos m hm, List.length_drop]
  omega

theorem pySliceFromNeg_of_length_le (m : Int) (l : List α)
    (h : (l.length : Int) ≤ m) : pySliceFromNeg m l = l := by
  by_cases hm : 0 < m
  · rw [pySliceFromNeg_pos m hm]
    have hz : l.length - m.toNat = 0 := by omega
    rw [hz, List.drop_zero]
  · have hz : l.length = 0 := by omega
    rw [List.length_eq_zero] at hz
    subst hz
    simp [pySliceFromNeg]

theorem pySliceFromNeg_snoc (m : Int) (hm : 1 ≤ m) (l : List α) (x : α) :
    pySliceFromNeg m (pySliceFromNeg m l ++ [x]) = pySliceFromNeg m (l ++ [x]) := by
  have hm0 : 0 < m := hm
  have hn1 : 1 ≤ m.toNat := by omega
  rw [pySliceFromNeg_pos m hm0, pySliceFromNeg_pos m hm0, pySliceFromNeg_pos m hm0]
  have hld : (l.drop (l.length - m.toNat)).length = l.length - (l.length - m.toNat) :=
    List.length_drop _ _
  rw [List.length_append, List.length_append]
  simp only [List.length_singleton]
  rw [List.drop_append_of_le_length (by rw [hld]; omega),
      List.drop_append_of_le_length (by omega),
      List.drop_drop]
  have hidx : l.length - m.toNat + ((l.drop (l.length - m.toNat)).length + 1 - m.toNat)
      = l.length + 1 - m.toNat := by rw [hld]; omega
  rw [hidx]

/-! ### Conversation memory (claim C9) -/

theorem append_message_max (mem : InMemoryConversationMemory) (id : String)
    (msg : MemoryMessage) :
    (append_message mem id msg).max_messages = mem.max_messages := rfl

theorem foldl_append_message_max (ops : List (String × MemoryMessage))
    (mem : InMemoryConversationMemory) :
    (ops.foldl (fun mem p => append_message mem p.1 p.2) mem).max_messages
      = mem.max_messages := by
  induction ops generalizing mem with
  | nil => rfl
  | cons p rest ih => rw [List.foldl_cons, ih, append_message_max]

theorem get_history_append_message (mem : InMemoryConversationMemory)
    (id id' : String) (msg : MemoryMessage) :
    get_history (append_message mem id' msg) id =
      if id = id' then
        (if ((get_history mem id' ++ [msg]).length : Int) > mem.max_messages
         then pySliceFromNeg mem.max_messages (get_history mem id' ++ [msg])
         else get_history mem id' ++ [msg])
      else get_history mem id := by
  unfold append_message get_history aGetD aSet
  simp only []
  rw [kGetD_kSet]
  by_cases h : id = id'
  · simp [h]
  · have h' : ¬ (id == id') = true := fun hc => h (eq_of_beq hc)
    simp [h, h']

/-- The messages appended for one conversation id across a sequence of
`append_message` calls, in order. -/
def appendedFor (conversation_id : String)
    (ops : List (String × MemoryMessage)) : List MemoryMessage :=
  (ops.filter (fun p => p.1 == conversation_id)).map Prod.snd

theorem appendedFor_snoc (conversation_id : String)
    (ops : List (String × MemoryMessage)) (p : String × MemoryMessage) :
    appendedFor conversation_id (ops ++ [p]) =
      appendedFor conversation_id ops ++
        (if p.1 = conversation_id then [p.2] else []) := by
  by_cases h : p.1 = conversation_id <;>
    simp [appendedFor, List.filter_append, List.filter_cons, h]

theorem mk0_max (m : Int) : (InMemoryConversationMemory.mk0 m).max_messages = m := rfl

theorem get_history_foldl (m : Int) (hm : 1 ≤ m)
    (ops : List (String × MemoryMessage)) (conversation_id : String) :
    get_history (ops.foldl (fun mem p => append_message mem p.1 p.2)
        (InMemoryConversationMemory.mk0 m)) conversation_id
      = pySliceFromNeg m (appendedFor conversation_id ops) := by
  induction ops using List.reverseRecOn generalizing conversation_id with
  | nil =>
      simp [get_history, aGetD, kGetD, InMemoryConversationMemory.mk0,
        appendedFor, pySliceFromNeg]
  | append_singleton ops p ih =>
      rw [List.foldl_append, List.foldl_cons, List.foldl_nil]
      rw [get_history_append_message, foldl_append_message_max, mk0_max,
        appendedFor_snoc]
      by_cases h : conversation_id = p.1
      · subst h
        rw [if_pos rfl, if_pos rfl, ih]
        rw [← pySliceFromNeg_snoc m hm (appendedFor p.1 ops) p.2]
        by_cases hlen :
            ((pySliceFromNeg m (appendedFor p.1 ops) ++ [p.2]).length : Int) > m
        · rw [if_pos hlen]
        · rw [if_neg hlen,
            pySliceFromNeg_of_length_le m
              (pySliceFromNeg m (appendedFor p.1 ops) ++ [p.2]) (by omega)]
      · have h2 : ¬ p.1 = conversation_id := fun e => h e.symm
        rw [if_neg h, if_neg h2, List.append_nil, ih]

/-- C9: for every conversation id and every sequence of `append_message`
calls (with a positive cap, default 50), the stored history is exactly the
last `max_messages` messages appended for that id, in order, and its length
never exceeds `max_messages`. -/
theorem claim_C9_memory_cap (m : Int) (hm : 1 ≤ m)
    (ops : List (String × MemoryMessage)) (conversation_id : String) :
    get_history (ops.foldl (fun mem p => append_message mem p.1 p.2)
        (InMemoryConversationMemory.mk0 m)) conversation_id
      = pySliceFromNeg m (appendedFor conversation_id ops)
    ∧ ((get_history (ops.foldl (fun mem p => append_message mem p.1 p.2)
        (InMemoryConversationMemory.mk0 m)) conversation_id).length : Int) ≤ m := by
  refine ⟨get_history_foldl m hm ops conversation_id, ?_⟩
  rw [get_history_foldl m hm ops conversation_id]
  have hb := pySliceFromNeg_length_le m (by omega) (appendedFor conversation_id ops)
  omega

/-- A concrete four-append sequence over two conversation ids. -/
def c9ops : List (String × MemoryMessage) :=
  [("a", ⟨"user", []⟩), ("b", ⟨"user", []⟩), ("a", ⟨"assistant", []⟩),
   ("a", ⟨"user", []⟩)]

/-- Witness for C9 at cap 2 and the four-append sequence. -/
theorem claim_C9_memory_cap_witness :
    get_history (c9ops.foldl (fun mem p => append_message mem p.1 p.2)
        (InMemoryConversationMemory.mk0 2)) "a"
      = pySliceFromNeg 2 (appendedFor "a" c9ops)
    ∧ ((get_history (c9ops.foldl (fun mem p => append_message mem p.1 p.2)
        (InMemoryConversationMemory.mk0 2)) "a").length : Int) ≤ 2 :=
  claim_C9_memory_cap 2 (by decide) c9ops "a"


/-! ### Branch behavior of the per-call processing -/

theorem _emit_progress_ok (cb : Option (Nat → Except Unit Unit)) (k : Nat) :
    _emit_progress cb k = .ok () := by
  unfold _emit_progress
  cases cb with
  | none => rfl
  | some f => cases hfk : f k <;> simp [hfk]

theorem processCall_name_none (env : Env) (plan : List (String × JValue))
    (e c : Nat) (call : Block) (h : call.name = none) :
    processCall env plan e c call = .ok ⟨plan, none, e, c⟩ := by
  simp [processCall, h]; rfl

theorem processCall_name_empty (env : Env) (plan : List (String × JValue))
    (e c : Nat) (call : Block) (h : call.name = some "") :
    processCall env plan e c call = .ok ⟨plan, none, e, c⟩ := by
  simp [processCall, h]; rfl

theorem processCall_missing_input (env : Env) (plan : List (String × JValue))
    (e c : Nat) (call : Block) (nm : String) (h : call.name = some nm)
    (hnm : ¬ nm = "") (hin : pyTruthy (callInputOf call) = false) :
    processCall env plan e c call
      = .ok ⟨plan, some (missingFieldsResult nm call.id), e, c + 1 + 1⟩ := by
  simp [processCall, h, hnm, hin, _emit_progress_ok]; rfl

theorem processCall_vError (env : Env) (plan : List (String × JValue))
    (e c : Nat) (call : Block) (nm msg : String) (k' : Nat)
    (h : call.name = some nm) (hnm : ¬ nm = "")
    (hin : pyTruthy (callInputOf call) = true)
    (hexec : _execute_tool env e nm = (.vError msg, k')) :
    processCall env plan e c call
      = .ok ⟨plan, some (validationErrorResult nm call.id msg), k', c + 1 + 1⟩ := by
  simp [processCall, h, hnm, hin, hexec, _emit_progress_ok]; rfl

theorem processCall_exError (env : Env) (plan : List (String × JValue))
    (e c : Nat) (call : Block) (nm msg : String) (k' : Nat)
    (h : call.name = some nm) (hnm : ¬ nm = "")
    (hin : pyTruthy (callInputOf call) = true)
    (hexec : _execute_tool env e nm = (.exError msg, k')) :
    processCall env plan e c call
      = .ok ⟨plan, some (executionErrorResult nm call.id msg), k', c + 1 + 1⟩ := by
  simp [processCall, h, hnm, hin, hexec, _emit_progress_ok]; rfl

theorem processCall_okOutcome (env : Env) (plan : List (String × JValue))
    (e c : Nat) (call : Block) (nm : String) (output : JValue) (k' : Nat)
    (h : call.name = some nm) (hnm : ¬ nm = "")
    (hin : pyTruthy (callInputOf call) = true)
    (hexec : _execute_tool env e nm = (.ok output, k')) :
    processCall env plan e c call
      = .ok ⟨mergePlan plan nm output, some (okResult call.id output), k', c + 1 + 1⟩ := by
  simp [processCall, h, hnm, hin, hexec, _emit_progress_ok]; rfl

/-! ### Plan accumulation (claim C4) -/

theorem sGet_sSet_self (m : List (String × JValue)) (k : String) (v : JValue) :
    sGet (sSet m k v) k = v := by
  unfold sGet sSet
  rw [kGetD_kSet]
  simp

theorem mergePlan_of_null (plan : List (String × JValue)) (name : String)
    (output : JValue) (h : sGet plan name = .null) :
    mergePlan plan name output = sSet plan name output := by
  unfold mergePlan; rw [h]

theorem mergePlan_of_obj (plan : List (String × JValue)) (name : String)
    (fs : List (String × JValue)) (output : JValue)
    (h : sGet plan name = .obj fs) :
    mergePlan plan name output = sSet plan name (.arr [.obj fs, output]) := by
  unfold mergePlan; rw [h]

theorem mergePlan_of_arr (plan : List (String × JValue)) (name : String)
    (l : List JValue) (output : JValue) (h : sGet plan name = .arr l) :
    mergePlan plan name output = sSet plan name (.arr (l ++ [output])) := by
  unfold mergePlan; rw [h]

/-- C4: starting from a plan with no entry for a tool name, merging a first
successful output A (tool outputs are always `model_dump` dicts) stores it
bare, a second output B promotes the entry to `[A, B]`, and a third appends
to give `[A, B, C]`; moreover the per-call processing changes the plan only
by merging the output of a successful execution, so outputs of failed calls
are never merged. -/
theorem claim_C4_plan_accumulation
    (plan : List (String × JValue)) (name : String)
    (fields : List (String × JValue)) (B C : JValue)
    (h0 : sGet plan name = .null)
    (env : Env) (plan' : List (String × JValue)) (execIdx cbIdx : Nat)
    (call : Block) (out : CallOut)
    (hp : processCall env plan' execIdx cbIdx call = .ok out) :
    sGet (mergePlan plan name (.obj fields)) name = .obj fields
    ∧ sGet (mergePlan (mergePlan plan name (.obj fields)) name B) name
        = .arr [.obj fields, B]
    ∧ sGet (mergePlan (mergePlan (mergePlan plan name (.obj fields)) name B)
        name C) name = .arr [.obj fields, B, C]
    ∧ (out.plan = plan'
       ∨ ∃ nm output, call.name = some nm
           ∧ _execute_tool env execIdx nm = (.ok output, execIdx + 1)
           ∧ out.plan = mergePlan plan' nm output) := by
  have h1 : sGet (mergePlan plan name (.obj fields)) name = .obj fields := by
    rw [mergePlan_of_null plan name _ h0, sGet_sSet_self]
  have h2 : sGet (mergePlan (mergePlan plan name (.obj fields)) name B) name
      = .arr [.obj fields, B] := by
    rw [mergePlan_of_obj _ name fields B h1, sGet_sSet_self]
  have h3 : sGet (mergePlan (mergePlan (mergePlan plan name (.obj fields))
      name B) name C) name = .arr [.obj fields, B, C] := by
    rw [mergePlan_of_arr _ name _ C h2, sGet_sSet_self]; rfl
  refine ⟨h1, h2, h3, ?_⟩
  cases hname : call.name with
  | none =>
      rw [processCall_name_none env plan' execIdx cbIdx call hname] at hp
      cases hp; exact Or.inl rfl
  | some nm =>
      by_cases hnm : nm = ""
      · subst hnm
        rw [processCall_name_empty env plan' execIdx cbIdx call hname] at hp
        cases hp; exact Or.inl rfl
      · by_cases hin : pyTruthy (callInputOf call) = true
        · cases hexec : _execute_tool env execIdx nm with
          | mk outc k' =>
              cases outc with
              | ok output =>
                  have hk'' : k' = execIdx + 1 := by
                    unfold _execute_tool at hexec
                    by_cases hreg : registryNames.contains nm
                    · rw [if_pos hreg] at hexec
                      exact (congrArg Prod.snd hexec).symm
                    · rw [if_neg hreg] at hexec
                      have := congrArg Prod.fst hexec
                      simp at this
                  subst hk''
                  rw [processCall_okOutcome env plan' execIdx cbIdx call nm
                    output _ hname hnm hin hexec] at hp
                  cases hp
                  exact Or.inr ⟨nm, output, rfl, hexec, rfl⟩
              | vError msg =>
                  rw [processCall_vError env plan' execIdx cbIdx call nm msg k'
                    hname hnm hin hexec] at hp
                  cases hp; exact Or.inl rfl
              | exError msg =>
                  rw [processCall_exError env plan' execIdx cbIdx call nm msg k'
                    hname hnm hin hexec] at hp
                  cases hp; exact Or.inl rfl
        · have hin' : pyTruthy (callInputOf call) = false := by
            cases hx : pyTruthy (callInputOf call)
            · rfl
            · exact absurd hx hin
          rw [processCall_missing_input env plan' execIdx cbIdx call nm hname
            hnm hin'] at hp
          cases hp; exact Or.inl rfl

/-- A trivial concrete environment (no tool calls, structured parse fails). -/
def c4env : Env := ⟨fun _ => .ok ⟨[]⟩, fun _ => .ok (.obj []), none, .ok none⟩

/-- Witness for C4 at concrete inputs (a nameless block, so its processing
leaves the plan unchanged). -/
theorem claim_C4_plan_accumulation_witness :
    sGet (mergePlan [] "get_weather" (.obj [("t", .num 1)])) "get_weather"
        = .obj [("t", .num 1)]
    ∧ sGet (mergePlan (mergePlan [] "get_weather" (.obj [("t", .num 1)]))
        "get_weather" (.obj [])) "get_weather"
        = .arr [.obj [("t", .num 1)], .obj []]
    ∧ sGet (mergePlan (mergePlan (mergePlan [] "get_weather"
        (.obj [("t", .num 1)])) "get_weather" (.obj [])) "get_weather"
        (.num 3)) "get_weather"
        = .arr [.obj [("t", .num 1)], .obj [], .num 3]
    ∧ ((⟨[], none, 0, 0⟩ : CallOut).plan = ([] : List (String × JValue))
       ∨ ∃ nm output, (Block.mk none none none none none).name = some nm
           ∧ _execute_tool c4env 0 nm = (.ok output, 0 + 1)
           ∧ (⟨[], none, 0, 0⟩ : CallOut).plan = mergePlan [] nm output) :=
  claim_C4_plan_accumulation [] "get_weather" [("t", .num 1)] (.obj [])
    (.num 3) rfl c4env [] 0 0 ⟨none, none, none, none, none⟩
    ⟨[], none, 0, 0⟩ rfl

/-! ### One result per invocation (claim C3) -/

theorem processCall_char (env : Env) (plan : List (String × JValue))
    (e c : Nat) (call : Block) (nm : String)
    (hname : call.name = some nm) (hnm : ¬ nm = "") :
    ∃ out, processCall env plan e c call = .ok out
      ∧ ∃ r, out.result = some r ∧ r.tool_use_id = call.id := by
  by_cases hin : pyTruthy (callInputOf call) = true
  · cases hexec : _execute_tool env e nm with
    | mk outc k' =>
        cases outc with
        | ok output =>
            exact ⟨_, processCall_okOutcome env plan e c call nm output k'
              hname hnm hin hexec, ⟨okResult call.id output, rfl, rfl⟩⟩
        | vError msg =>
            exact ⟨_, processCall_vError env plan e c call nm msg k'
              hname hnm hin hexec, ⟨validationErrorResult nm call.id msg, rfl, rfl⟩⟩
        | exError msg =>
            exact ⟨_, processCall_exError env plan e c call nm msg k'
              hname hnm hin hexec, ⟨executionErrorResult nm call.id msg, rfl, rfl⟩⟩
  · have hin' : pyTruthy (callInputOf call) = false := by
      cases hx : pyTruthy (callInputOf call)
      · rfl
      · exact absurd hx hin
    exact ⟨_, processCall_missing_input env plan e c call nm hname hnm hin',
      ⟨missingFieldsResult nm call.id, rfl, rfl⟩⟩

theorem foldlM_processCallsStep_ids (env : Env) (calls : List Block) :
    ∀ acc : RoundOut,
      (∀ call ∈ calls, ∃ nm, call.name = some nm ∧ ¬ nm = "") →
      ∃ rnd, calls.foldlM (processCallsStep env) acc = .ok rnd
        ∧ rnd.payload.map (fun r => r.tool_use_id)
            = acc.payload.map (fun r => r.tool_use_id)
              ++ calls.map (fun b => b.id) := by
  induction calls with
  | nil =>
      intro acc _
      exact ⟨acc, rfl, by simp⟩
  | cons call rest ih =>
      intro acc hall
      obtain ⟨nm, hname, hnm⟩ := hall call (List.mem_cons_self call rest)
      obtain ⟨out, hout, r, hr, hrid⟩ :=
        processCall_char env acc.plan acc.execIdx acc.cbIdx call nm hname hnm
      have hrest : ∀ c ∈ rest, ∃ nm, c.name = some nm ∧ ¬ nm = "" :=
        fun c hc => hall c (List.mem_cons_of_mem call hc)
      obtain ⟨rnd, hfold, hids⟩ :=
        ih ⟨out.plan, acc.payload ++ out.result.toList, out.execIdx, out.cbIdx⟩ hrest
      refine ⟨rnd, ?_, ?_⟩
      · rw [List.foldlM_cons]
        show (processCallsStep env acc call) >>= _ = .ok rnd
        rw [show processCallsStep env acc call
            = .ok ⟨out.plan, acc.payload ++ out.result.toList, out.execIdx,
                   out.cbIdx⟩ by
          unfold processCallsStep
          rw [hout]
          rfl]
        exact hfold
      · rw [hids, hr]
        simp [hrid]

/-- C3: every tool-invocation block bearing a tool name (per the gateway
interface of spec section 6 tool-use blocks carry a name) yields exactly one
`ToolResult` with that block's id: the round's results payload lists exactly
the ids of its invocation blocks, in order; and an invocation with an
empty/missing input never consults the executor (the executor-oracle index is
untouched) and yields precisely the synthesized "missing required fields"
result for its id. -/
theorem claim_C3_one_result_per_invocation (env : Env)
    (plan plan2 : List (String × JValue)) (e c e2 c2 : Nat)
    (calls : List Block) (rnd : RoundOut)
    (hall : ∀ call ∈ calls, ∃ nm, call.name = some nm ∧ ¬ nm = "")
    (hrnd : processCalls env plan e c calls = .ok rnd)
    (call2 : Block) (nm2 : String) (hname2 : call2.name = some nm2)
    (hnm2 : ¬ nm2 = "") (hin2 : pyTruthy (callInputOf call2) = false) :
    rnd.payload.map (fun r => r.tool_use_id) = calls.map (fun b => b.id)
    ∧ processCall env plan2 e2 c2 call2
        = .ok ⟨plan2, some (missingFieldsResult nm2 call2.id), e2, c2 + 1 + 1⟩ := by
  constructor
  · obtain ⟨rnd', hfold, hids⟩ :=
      foldlM_processCallsStep_ids env calls ⟨plan, [], e, c⟩ hall
    have : rnd = rnd' := by
      unfold processCalls at hrnd
      rw [hrnd] at hfold
      cases hfold
      rfl
    subst this
    simpa using hids
  · exact processCall_missing_input env plan2 e2 c2 call2 nm2 hname2 hnm2 hin2

/-- Concrete environment for the C3 witness: the executor returns an empty
dict, the structured parse fails. -/
def c3env : Env := ⟨fun _ => .ok ⟨[]⟩, fun _ => .ok (.obj []), none, .ok none⟩

/-- A tool-use block naming a registered tool with non-empty input. -/
def c3b1 : Block :=
  ⟨some "tool_use", some "id1", some "get_route",
   some (.obj [("start", .str "Paris")]), none⟩

/-- A tool-use block naming an unknown tool with non-empty input. -/
def c3b2 : Block :=
  ⟨some "tool_use", none, some "bogus", some (.obj [("x", .num 1)]), none⟩

/-- A tool-use block with a registered tool but missing input. -/
def c3b3 : Block := ⟨some "tool_use", some "id3", some "get_weather", none, none⟩

/-- The round output for processing `[c3b1, c3b2]` from an empty plan. -/
def c3rnd : RoundOut :=
  ⟨[("get_route", .obj [])],
   [okResult (some "id1") (.obj []),
    executionErrorResult "bogus" none "Unknown tool requested: bogus"],
   1, 4⟩

/-- Witness for C3: both blocks of a concrete round are answered, in order,
and the empty-input call yields only the synthesized error, leaving the
executor index untouched. -/
theorem claim_C3_one_result_per_invocation_witness :
    c3rnd.payload.map (fun r => r.tool_use_id)
        = [c3b1, c3b2].map (fun b => b.id)
    ∧ processCall c3env [] 5 7 c3b3
        = .ok ⟨[], some (missingFieldsResult "get_weather" c3b3.id), 5, 7 + 1 + 1⟩ :=
  claim_C3_one_result_per_invocation c3env [] [] 0 0 5 7 [c3b1, c3b2] c3rnd
    (by
      intro call hc
      rcases List.mem_cons.mp hc with h | hc2
      · exact ⟨"get_route", by subst h; rfl, by decide⟩
      · rcases List.mem_cons.mp hc2 with h | h
        · exact ⟨"bogus", by subst h; rfl, by decide⟩
        · exact absurd h (List.not_mem_nil call))
    rfl c3b3 "get_weather" rfl (by decide) rfl

/-! ### Loop-level lemmas (claims C1, C2) -/

theorem processCall_total (env : Env) (plan : List (String × JValue))
    (e c : Nat) (call : Block) :
    ∃ out, processCall env plan e c call = .ok out := by
  cases hname : call.name with
  | none => exact ⟨_, processCall_name_none env plan e c call hname⟩
  | some nm =>
      by_cases hnm : nm = ""
      · subst hnm
        exact ⟨_, processCall_name_empty env plan e c call hname⟩
      · obtain ⟨out, hout, _⟩ := processCall_char env plan e c call nm hname hnm
        exact ⟨out, hout⟩

theorem foldlM_processCallsStep_total (env : Env) (calls : List Block) :
    ∀ acc : RoundOut,
      ∃ rnd, calls.foldlM (processCallsStep env) acc = .ok rnd := by
  induction calls with
  | nil => intro acc; exact ⟨acc, rfl⟩
  | cons call rest ih =>
      intro acc
      obtain ⟨out, hout⟩ := processCall_total env acc.plan acc.execIdx acc.cbIdx call
      obtain ⟨rnd, hrest⟩ :=
        ih ⟨out.plan, acc.payload ++ out.result.toList, out.execIdx, out.cbIdx⟩
      refine ⟨rnd, ?_⟩
      rw [List.foldlM_cons]
      show (processCallsStep env acc call) >>= _ = .ok rnd
      rw [show processCallsStep env acc call
          = .ok ⟨out.plan, acc.payload ++ out.result.toList, out.execIdx,
                 out.cbIdx⟩ by
        unfold processCallsStep; rw [hout]; rfl]
      exact hrest

theorem processCalls_total (env : Env) (plan : List (String × JValue))
    (e c : Nat) (calls : List Block) :
    ∃ rnd, processCalls env plan e c calls = .ok rnd :=
  foldlM_processCallsStep_total env calls ⟨plan, [], e, c⟩

theorem _execute_tool_cb (env : Env) (cb' : Option (Nat → Except Unit Unit))
    (k : Nat) (nm : String) :
    _execute_tool { env with cb := cb' } k nm = _execute_tool env k nm := rfl

theorem processCall_cb (env : Env)
    (cb1 cb2 : Option (Nat → Except Unit Unit))
    (plan : List (String × JValue)) (e c : Nat) (call : Block) :
    processCall { env with cb := cb1 } plan e c call
      = processCall { env with cb := cb2 } plan e c call := by
  cases hname : call.name with
  | none =>
      rw [processCall_name_none _ plan e c call hname,
        processCall_name_none _ plan e c call hname]
  | some nm =>
      by_cases hnm : nm = ""
      · subst hnm
        rw [processCall_name_empty _ plan e c call hname,
          processCall_name_empty _ plan e c call hname]
      · by_cases hin : pyTruthy (callInputOf call) = true
        · cases hexec : _execute_tool env e nm with
          | mk outc k' =>
              cases outc with
              | ok output =>
                  rw [processCall_okOutcome _ plan e c call nm output k' hname
                      hnm hin (_execute_tool_cb env cb1 e nm ▸ hexec),
                    processCall_okOutcome _ plan e c call nm output k' hname
                      hnm hin (_execute_tool_cb env cb2 e nm ▸ hexec)]
              | vError msg =>
                  rw [processCall_vError _ plan e c call nm msg k' hname
                      hnm hin (_execute_tool_cb env cb1 e nm ▸ hexec),
                    processCall_vError _ plan e c call nm msg k' hname
                      hnm hin (_execute_tool_cb env cb2 e nm ▸ hexec)]
              | exError msg =>
                  rw [processCall_exError _ plan e c call nm msg k' hname
                      hnm hin (_execute_tool_cb env cb1 e nm ▸ hexec),
                    processCall_exError _ plan e c call nm msg k' hname
                      hnm hin (_execute_tool_cb env cb2 e nm ▸ hexec)]
        · have hin' : pyTruthy (callInputOf call) = false := by
            cases hx : pyTruthy (callInputOf call)
            · rfl
            · exact absurd hx hin
          rw [processCall_missing_input _ plan e c call nm hname hnm hin',
            processCall_missing_input _ plan e c call nm hname hnm hin']

theorem foldlM_processCallsStep_cb (env : Env)
    (cb1 cb2 : Option (Nat → Except Unit Unit)) (calls : List Block) :
    ∀ acc : RoundOut,
      calls.foldlM (processCallsStep { env with cb := cb1 }) acc
        = calls.foldlM (processCallsStep { env with cb := cb2 }) acc := by
  induction calls with
  | nil => intro acc; rfl
  | cons call rest ih =>
      intro acc
      rw [List.foldlM_cons, List.foldlM_cons]
      show (processCallsStep _ acc call) >>= _
        = (processCallsStep _ acc call) >>= _
      obtain ⟨out, hout⟩ :=
        processCall_total { env with cb := cb1 } acc.plan acc.execIdx acc.cbIdx call
      have hout2 :
          processCall { env with cb := cb2 } acc.plan acc.execIdx acc.cbIdx call
            = .ok out := by
        rw [← processCall_cb env cb1 cb2 acc.plan acc.execIdx acc.cbIdx call]
        exact hout
      rw [show processCallsStep { env with cb := cb1 } acc call
          = .ok ⟨out.plan, acc.payload ++ out.result.toList, out.execIdx,
                 out.cbIdx⟩ by
        unfold processCallsStep; rw [hout]; rfl]
      rw [show processCallsStep { env with cb := cb2 } acc call
          = .ok ⟨out.plan, acc.payload ++ out.result.toList, out.execIdx,
                 out.cbIdx⟩ by
        unfold processCallsStep; rw [hout2]; rfl]
      exact ih _

theorem loopRounds_zero (env : Env) (st : LoopState) :
    loopRounds env 0 st = .ok st := rfl

theorem loopRounds_succ_noCalls (env : Env) (fuel : Nat) (st : LoopState)
    (h : st.last_response.content.filter isToolUse = []) :
    loopRounds env (fuel + 1) st
      = .ok { st with tool_calls := [], cbIdx := st.cbIdx + 1 } := by
  simp [loopRounds, h, _emit_progress_ok]
  rfl

theorem loopRounds_succ_calls (env : Env) (fuel : Nat) (st : LoopState)
    (rnd : RoundOut) (resp : Response)
    (hne : st.last_response.content.filter isToolUse ≠ [])
    (hrnd : processCalls env st.plan st.execIdx st.cbIdx
        (st.last_response.content.filter isToolUse) = .ok rnd)
    (hllm : env.llm st.llmIdx = .ok resp) :
    loopRounds env (fuel + 1) st = loopRounds env fuel
      ⟨st.messages ++ [⟨"assistant", .blocks st.last_response.content⟩,
         ⟨"user", .results rnd.payload⟩],
       rnd.plan, st.tool_round + 1,
       st.last_response.content.filter isToolUse, resp,
       st.llmIdx + 1, rnd.execIdx, rnd.cbIdx + 1⟩ := by
  have hne' : (st.last_response.content.filter isToolUse).isEmpty = false := by
    cases hx : st.last_response.content.filter isToolUse with
    | nil => exact absurd hx hne
    | cons b bs => rfl
  simp [loopRounds, hne', hrnd, hllm, _emit_progress_ok]
  rfl

theorem loopRounds_succ_llmError (env : Env) (fuel : Nat) (st : LoopState)
    (rnd : RoundOut) (e : Unit)
    (hne : st.last_response.content.filter isToolUse ≠ [])
    (hrnd : processCalls env st.plan st.execIdx st.cbIdx
        (st.last_response.content.filter isToolUse) = .ok rnd)
    (hllm : env.llm st.llmIdx = .error e) :
    loopRounds env (fuel + 1) st = .error e := by
  have hne' : (st.last_response.content.filter isToolUse).isEmpty = false := by
    cases hx : st.last_response.content.filter isToolUse with
    | nil => exact absurd hx hne
    | cons b bs => rfl
  simp [loopRounds, hne', hrnd, hllm, _emit_progress_ok]

theorem loopRounds_round_le (env : Env) :
    ∀ (fuel : Nat) (st st' : LoopState),
      loopRounds env fuel st = .ok st' →
      st'.tool_round ≤ st.tool_round + fuel := by
  intro fuel
  induction fuel with
  | zero =>
      intro st st' h
      rw [loopRounds_zero] at h
      cases h
      omega
  | succ n ih =>
      intro st st' h
      cases hf : st.last_response.content.filter isToolUse with
      | nil =>
          rw [loopRounds_succ_noCalls env n st hf] at h
          cases h
          simp
      | cons b bs =>
          obtain ⟨rnd, hrnd⟩ := processCalls_total env st.plan st.execIdx
            st.cbIdx (st.last_response.content.filter isToolUse)
          cases hllm : env.llm st.llmIdx with
          | error e =>
              rw [loopRounds_succ_llmError env n st rnd e
                (by rw [hf]; simp) hrnd hllm] at h
              cases h
          | ok resp =>
              rw [loopRounds_succ_calls env n st rnd resp
                (by rw [hf]; simp) hrnd hllm] at h
              have hb := ih _ _ h
              simp at hb
              omega

theorem loopRounds_total (env : Env)
    (hllm : ∀ k, (env.llm k).isOk = true) :
    ∀ (fuel : Nat) (st : LoopState),
      ∃ st', loopRounds env fuel st = .ok st' := by
  intro fuel
  induction fuel with
  | zero => intro st; exact ⟨st, rfl⟩
  | succ n ih =>
      intro st
      cases hf : st.last_response.content.filter isToolUse with
      | nil =>
          exact ⟨_, loopRounds_succ_noCalls env n st hf⟩
      | cons b bs =>
          obtain ⟨rnd, hrnd⟩ := processCalls_total env st.plan st.execIdx
            st.cbIdx (st.last_response.content.filter isToolUse)
          cases hllm2 : env.llm st.llmIdx with
          | error e =>
              have := hllm st.llmIdx
              rw [hllm2] at this
              cases this
          | ok resp =>
              obtain ⟨st', hst'⟩ := ih
                ⟨st.messages ++ [⟨"assistant", .blocks st.last_response.content⟩,
                   ⟨"user", .results rnd.payload⟩],
                 rnd.plan, st.tool_round + 1,
                 st.last_response.content.filter isToolUse, resp,
                 st.llmIdx + 1, rnd.execIdx, rnd.cbIdx + 1⟩
              exact ⟨st', by
                rw [loopRounds_succ_calls env n st rnd resp
                  (by rw [hf]; simp) hrnd hllm2]
                exact hst'⟩

theorem loopRounds_cb (env : Env)
    (cb1 cb2 : Option (Nat → Except Unit Unit)) :
    ∀ (fuel : Nat) (st : LoopState),
      loopRounds { env with cb := cb1 } fuel st
        = loopRounds { env with cb := cb2 } fuel st := by
  intro fuel
  induction fuel with
  | zero => intro st; rfl
  | succ n ih =>
      intro st
      cases hf : st.last_response.content.filter isToolUse with
      | nil =>
          rw [loopRounds_succ_noCalls _ n st hf,
            loopRounds_succ_noCalls _ n st hf]
      | cons b bs =>
          obtain ⟨rnd, hrnd⟩ := processCalls_total { env with cb := cb1 }
            st.plan st.execIdx st.cbIdx
            (st.last_response.content.filter isToolUse)
          have hrnd2 : processCalls { env with cb := cb2 } st.plan st.execIdx
              st.cbIdx (st.last_response.content.filter isToolUse) = .ok rnd := by
            unfold processCalls
            rw [← foldlM_processCallsStep_cb env cb1 cb2]
            exact hrnd
          cases hllm : env.llm st.llmIdx with
          | error e =>
              rw [loopRounds_succ_llmError _ n st rnd e
                  (by rw [hf]; simp) hrnd hllm,
                loopRounds_succ_llmError _ n st rnd e
                  (by rw [hf]; simp) hrnd2 hllm]
          | ok resp =>
              rw [loopRounds_succ_calls _ n st rnd resp
                  (by rw [hf]; simp) hrnd hllm,
                loopRounds_succ_calls _ n st rnd resp
                  (by rw [hf]; simp) hrnd2 hllm]
              exact ih _

theorem exceptBind_ok (a : α) (f : α → Except Unit β) :
    (Except.ok a : Except Unit α) >>= f = f a := rfl

theorem exceptBind_error (e : Unit) (f : α → Except Unit β) :
    (Except.error e : Except Unit α) >>= f = Except.error e := rfl

theorem exceptPure (a : α) : (pure a : Except Unit α) = Except.ok a := rfl

theorem filter_not_filter (l : List Block) :
    (l.filter (fun b => !isToolUse b)).filter isToolUse = [] := by
  induction l with
  | nil => rfl
  | cons b bs ih => cases hb : isToolUse b <;> simp [List.filter_cons, hb, ih]

theorem _run_tool_loop_llmFail (env : Env) (msgs : List Msg) (e : Unit)
    (hllm : env.llm 0 = .error e) :
    _run_tool_loop env msgs = .error e := by
  simp only [_run_tool_loop, hllm, exceptBind_error]

theorem _run_tool_loop_loopFail (env : Env) (msgs : List Msg) (lr : Response)
    (e : Unit) (hllm : env.llm 0 = .ok lr)
    (hloop : loopRounds env total_rounds_allowed
        ⟨msgs, [], 0, [], lr, 1, 0, 1⟩ = .error e) :
    _run_tool_loop env msgs = .error e := by
  simp only [_run_tool_loop, hllm, _emit_progress_ok, exceptBind_ok, hloop,
    exceptBind_error]

theorem _run_tool_loop_clean (env : Env) (msgs : List Msg) (lr : Response)
    (st : LoopState) (hllm : env.llm 0 = .ok lr)
    (hloop : loopRounds env total_rounds_allowed
        ⟨msgs, [], 0, [], lr, 1, 0, 1⟩ = .ok st)
    (hd : st.last_response.content.filter isToolUse = []) :
    _run_tool_loop env msgs = .ok { st with cbIdx := st.cbIdx + 1 } := by
  simp only [_run_tool_loop, hllm, _emit_progress_ok, exceptBind_ok, hloop, hd,
    exceptPure]
  rfl

theorem _run_tool_loop_strip (env : Env) (msgs : List Msg) (lr : Response)
    (st : LoopState) (hllm : env.llm 0 = .ok lr)
    (hloop : loopRounds env total_rounds_allowed
        ⟨msgs, [], 0, [], lr, 1, 0, 1⟩ = .ok st)
    (hd : (st.last_response.content.filter isToolUse).isEmpty = false) :
    _run_tool_loop env msgs
      = .ok { st with
          last_response := ⟨st.last_response.content.filter (fun b => !isToolUse b)⟩,
          cbIdx := st.cbIdx + 1 + 1 } := by
  simp only [_run_tool_loop, hllm, _emit_progress_ok, exceptBind_ok, hloop, hd,
    exceptPure]
  rfl

/-- C1: whenever `_run_tool_loop` returns, the number of tool-execution
rounds is at most `max_rounds + cleanup_rounds` (4 + 2 = 6), and the
returned response content contains no tool-invocation block — any dangling
tool_use blocks have been stripped. -/
theorem claim_C1_round_bound_and_strip (env : Env) (msgs : List Msg)
    (st' : LoopState) (hp : _run_tool_loop env msgs = .ok st') :
    st'.tool_round ≤ max_rounds + cleanup_rounds
    ∧ st'.last_response.content.filter isToolUse = [] := by
  cases hllm : env.llm 0 with
  | error e =>
      rw [_run_tool_loop_llmFail env msgs e hllm] at hp
      cases hp
  | ok lr =>
      cases hloop : loopRounds env total_rounds_allowed
          ⟨msgs, [], 0, [], lr, 1, 0, 1⟩ with
      | error e =>
          rw [_run_tool_loop_loopFail env msgs lr e hllm hloop] at hp
          cases hp
      | ok st =>
          have hb := loopRounds_round_le env total_rounds_allowed _ st hloop
          simp only [] at hb
          cases hd : st.last_response.content.filter isToolUse with
          | nil =>
              rw [_run_tool_loop_clean env msgs lr st hllm hloop hd] at hp
              cases hp
              exact ⟨by simpa using hb, hd⟩
          | cons b bs =>
              rw [_run_tool_loop_strip env msgs lr st hllm hloop
                (by rw [hd]; rfl)] at hp
              cases hp
              exact ⟨by simpa using hb, filter_not_filter _⟩

/-- A gateway environment that immediately stops requesting tools. -/
def c1env : Env := ⟨fun _ => .ok ⟨[]⟩, fun _ => .ok (.obj []), none, .ok none⟩

/-- The loop state `_run_tool_loop c1env []` ends in. -/
def c1st : LoopState := ⟨[], [], 0, [], ⟨[]⟩, 1, 0, 3⟩

/-- Witness for C1 at the trivial environment. -/
theorem claim_C1_round_bound_and_strip_witness :
    c1st.tool_round ≤ max_rounds + cleanup_rounds
    ∧ c1st.last_response.content.filter isToolUse = [] :=
  claim_C1_round_bound_and_strip c1env [] c1st rfl

theorem _run_tool_loop_cb (env : Env)
    (cb1 cb2 : Option (Nat → Except Unit Unit)) (msgs : List Msg) :
    _run_tool_loop { env with cb := cb1 } msgs
      = _run_tool_loop { env with cb := cb2 } msgs := by
  cases hllm : env.llm 0 with
  | error e =>
      rw [_run_tool_loop_llmFail { env with cb := cb1 } msgs e hllm,
        _run_tool_loop_llmFail { env with cb := cb2 } msgs e hllm]
  | ok lr =>
      cases hloop : loopRounds { env with cb := cb1 } total_rounds_allowed
          ⟨msgs, [], 0, [], lr, 1, 0, 1⟩ with
      | error e =>
          rw [_run_tool_loop_loopFail { env with cb := cb1 } msgs lr e hllm hloop,
            _run_tool_loop_loopFail { env with cb := cb2 } msgs lr e hllm
              (by rw [← loopRounds_cb env cb1 cb2]; exact hloop)]
      | ok st =>
          have hloop2 : loopRounds { env with cb := cb2 } total_rounds_allowed
              ⟨msgs, [], 0, [], lr, 1, 0, 1⟩ = .ok st := by
            rw [← loopRounds_cb env cb1 cb2]; exact hloop
          cases hd : st.last_response.content.filter isToolUse with
          | nil =>
              rw [_run_tool_loop_clean { env with cb := cb1 } msgs lr st hllm
                  hloop hd,
                _run_tool_loop_clean { env with cb := cb2 } msgs lr st hllm
                  hloop2 hd]
          | cons b bs =>
              rw [_run_tool_loop_strip { env with cb := cb1 } msgs lr st hllm
                  hloop (by rw [hd]; rfl),
                _run_tool_loop_strip { env with cb := cb2 } msgs lr st hllm
                  hloop2 (by rw [hd]; rfl)]

/-- C2: if every primary gateway call succeeds then `_run_tool_loop` returns
normally for every executor behavior and every progress callback — no
executor, validation, or callback exception escapes the loop; the loop's
result does not depend on the callback at all; and a validation or execution
failure of a call is converted into the corresponding synthesized error
`ToolResult`. Only gateway failures can propagate (the return type shows the
only failure channel, and the branch lemmas used here surface it only from
`env.llm`). -/
theorem claim_C2_failure_containment (env : Env) (msgs : List Msg)
    (cb1 cb2 : Option (Nat → Except Unit Unit))
    (plan : List (String × JValue)) (e1 c1 e2 c2 : Nat)
    (call1 call2 : Block) (nm1 nm2 msg1 msg2 : String) (k1 k2 : Nat)
    (hllm : ∀ k, (env.llm k).isOk = true)
    (hname1 : call1.name = some nm1) (hnm1 : ¬ nm1 = "")
    (hin1 : pyTruthy (callInputOf call1) = true)
    (hv : _execute_tool env e1 nm1 = (.vError msg1, k1))
    (hname2 : call2.name = some nm2) (hnm2 : ¬ nm2 = "")
    (hin2 : pyTruthy (callInputOf call2) = true)
    (hx : _execute_tool env e2 nm2 = (.exError msg2, k2)) :
    (_run_tool_loop env msgs).isOk = true
    ∧ _run_tool_loop { env with cb := cb1 } msgs
        = _run_tool_loop { env with cb := cb2 } msgs
    ∧ processCall env plan e1 c1 call1
        = .ok ⟨plan, some (validationErrorResult nm1 call1.id msg1), k1,
               c1 + 1 + 1⟩
    ∧ processCall env plan e2 c2 call2
        = .ok ⟨plan, some (executionErrorResult nm2 call2.id msg2), k2,
               c2 + 1 + 1⟩ := by
  refine ⟨?_, _run_tool_loop_cb env cb1 cb2 msgs,
    processCall_vError env plan e1 c1 call1 nm1 msg1 k1 hname1 hnm1 hin1 hv,
    processCall_exError env plan e2 c2 call2 nm2 msg2 k2 hname2 hnm2 hin2 hx⟩
  cases hllm0 : env.llm 0 with
  | error e =>
      have := hllm 0
      rw [hllm0] at this
      cases this
  | ok lr =>
      obtain ⟨st, hloop⟩ := loopRounds_total env hllm total_rounds_allowed
        ⟨msgs, [], 0, [], lr, 1, 0, 1⟩
      cases hd : st.last_response.content.filter isToolUse with
      | nil =>
          rw [_run_tool_loop_clean env msgs lr st hllm0 hloop hd]
          rfl
      | cons b bs =>
          rw [_run_tool_loop_strip env msgs lr st hllm0 hloop (by rw [hd]; rfl)]
          rfl

/-- Environment whose executor fails validation on its first invocation and
raises on every later one, while the gateway always succeeds. -/
def c2env : Env :=
  ⟨fun _ => .ok ⟨[]⟩,
   fun k => if k = 0 then .vError "bad" else .exError "boom",
   none, .ok none⟩

/-- A progress callback that raises on every emission. -/
def c2cbBad : Nat → Except Unit Unit := fun _ => .error ()

/-- A tool-use block whose execution hits the validation failure. -/
def c2call1 : Block :=
  ⟨some "tool_use", some "idv", some "get_route",
   some (.obj [("start", .str "A")]), none⟩

/-- A tool-use block whose execution hits the generic failure. -/
def c2call2 : Block :=
  ⟨some "tool_use", some "ide", some "get_weather",
   some (.obj [("location", .str "B")]), none⟩

/-- Witness for C2: with an always-succeeding gateway the loop returns
normally even under an always-raising callback, the callback does not affect
the result, and both failure kinds become synthesized error results. -/
theorem claim_C2_failure_containment_witness :
    (_run_tool_loop c2env []).isOk = true
    ∧ _run_tool_loop { c2env with cb := none } []
        = _run_tool_loop { c2env with cb := some c2cbBad } []
    ∧ processCall c2env [] 0 0 c2call1
        = .ok ⟨[], some (validationErrorResult "get_route" c2call1.id "bad"),
               1, 0 + 1 + 1⟩
    ∧ processCall c2env [] 1 0 c2call2
        = .ok ⟨[], some (executionErrorResult "get_weather" c2call2.id "boom"),
               2, 0 + 1 + 1⟩ :=
  claim_C2_failure_containment c2env [] none (some c2cbBad) [] 0 0 1 0
    c2call1 c2call2 "get_route" "get_weather" "bad" "boom" 1 2
    (fun _ => rfl) rfl (by decide) rfl rfl rfl (by decide) rfl rfl

/-! ### Adjustments (claim C6) -/

/-- The effect of the note-override stage of `_apply_adjustments` on a single
day: overwrite `notes` when the override map built from the override list
names the day. -/
def overrideNotes (overrides : Option (List DayNoteOverride)) (day : DayPlan) :
    DayPlan :=
  match overrides with
  | none => day
  | some ovs =>
      if ovs.isEmpty then day
      else
        match (ovs.foldl (fun m item => iSet m item.day item.notes)
            []).find? (fun p => p.1 == day.day) with
        | some p => { day with notes := p.2 }
        | none => day

theorem overrideNotes_end_ (overrides : Option (List DayNoteOverride))
    (day : DayPlan) : (overrideNotes overrides day).end_ = day.end_ := by
  unfold overrideNotes
  cases overrides with
  | none => rfl
  | some ovs =>
      by_cases h : ovs.isEmpty
      · simp [h]
      · simp only [h, if_false]
        cases hf : (ovs.foldl (fun m item => iSet m item.day item.notes)
            []).find? (fun p => p.1 == day.day) <;> simp [hf]

theorem overrideNotes_visa (overrides : Option (List DayNoteOverride))
    (day : DayPlan) : (overrideNotes overrides day).visa = day.visa := by
  unfold overrideNotes
  cases overrides with
  | none => rfl
  | some ovs =>
      by_cases h : ovs.isEmpty
      · simp [h]
      · simp only [h, if_false]
        cases hf : (ovs.foldl (fun m item => iSet m item.day item.notes)
            []).find? (fun p => p.1 == day.day) <;> simp [hf]

theorem mem_kSet [BEq κ] [LawfulBEq κ] (m : List (κ × α)) (k : κ) (v : α)
    (p : κ × α) (hp : p ∈ kSet m k v) : p.1 = k ∨ p ∈ m := by
  induction m with
  | nil =>
      simp [kSet] at hp
      subst hp
      exact Or.inl rfl
  | cons x xs ih =>
      by_cases hx : x.1 == k
      · simp [kSet, hx] at hp
        rcases hp with h | h
        · subst h; exact Or.inl (eq_of_beq hx)
        · exact Or.inr (List.mem_cons_of_mem x h)
      · simp [kSet, hx] at hp
        rcases hp with h | h
        · subst h; exact Or.inr (List.mem_cons_self _ _)
        · rcases ih h with h2 | h2
          · exact Or.inl h2
          · exact Or.inr (List.mem_cons_of_mem _ h2)

theorem foldl_iSet_keys (l : List DayNoteOverride) :
    ∀ (acc : List (Int × String)) (d : Int),
      (∀ p ∈ acc, ¬ p.1 = d) → (∀ o ∈ l, ¬ o.day = d) →
      ∀ p ∈ l.foldl (fun m item => iSet m item.day item.notes) acc, ¬ p.1 = d := by
  induction l with
  | nil => intro acc d hacc _ p hp; exact hacc p hp
  | cons o rest ih =>
      intro acc d hacc hl p hp
      rw [List.foldl_cons] at hp
      refine ih (iSet acc o.day o.notes) d ?_ (fun o' ho' => hl o' (List.mem_cons_of_mem o ho')) p hp
      intro q hq
      rcases mem_kSet acc o.day o.notes q hq with h | h
      · rw [h]; exact hl o (List.mem_cons_self o rest)
      · exact hacc q h

theorem overrideNotes_not_named (overrides : Option (List DayNoteOverride))
    (day : DayPlan) (h : ∀ o ∈ overrides.getD [], ¬ o.day = day.day) :
    overrideNotes overrides day = day := by
  unfold overrideNotes
  cases overrides with
  | none => rfl
  | some ovs =>
      by_cases hE : ovs.isEmpty
      · simp [hE]
      · have hnone : (ovs.foldl (fun m item => iSet m item.day item.notes)
            []).find? (fun p => p.1 == day.day) = none := by
          rw [List.find?_eq_none]
          intro p hp
          have := foldl_iSet_keys ovs [] day.day (by intro q hq; cases hq)
            (by intro o ho; exact h o (by simpa using ho)) p hp
          simpa using this
        simp [hE, hnone]

theorem applyNoteOverrides_eq_map (tp : TripPlan) (t : Option Int)
    (ovs : Option (List DayNoteOverride)) :
    applyNoteOverrides tp ⟨t, ovs⟩
      = { tp with itinerary := tp.itinerary.map (overrideNotes ovs) } := by
  cases ovs with
  | none =>
      have hmap : tp.itinerary.map (overrideNotes none) = tp.itinerary := by
        rw [show overrideNotes none = id from rfl, List.map_id]
      show tp = _
      rw [hmap]
  | some l =>
      cases l with
      | nil =>
          have hmap : tp.itinerary.map
              (overrideNotes (some ([] : List DayNoteOverride)))
              = tp.itinerary := by
            rw [show overrideNotes (some ([] : List DayNoteOverride)) = id
              from rfl, List.map_id]
          show tp = _
          rw [hmap]
      | cons o rest => rfl

theorem applyTargetDays_five (td : Rat) (bg : JValue) (A B C : DayPlan)
    (ovs : Option (List DayNoteOverride)) :
    applyTargetDays ⟨td, 3, [A, B, C], bg⟩ ⟨some 5, ovs⟩
      = ⟨td, 5,
         [A, B, C,
          ⟨4, C.end_, C.end_, 0, .null, .null, .null, .null, A.visa,
           "Additional day added per adjustments."⟩,
          ⟨5, C.end_, C.end_, 0, .null, .null, .null, .null, A.visa,
           "Additional day added per adjustments."⟩], bg⟩ := rfl

theorem applyTargetDays_two (td : Rat) (bg : JValue) (A B C : DayPlan)
    (ovs : Option (List DayNoteOverride)) :
    applyTargetDays ⟨td, 3, [A, B, C], bg⟩ ⟨some 2, ovs⟩
      = ⟨td, 2, [A, B], bg⟩ := rfl

/-- C6: on a 3-day TripPlan, `target_days = 5` appends two DayPlans cloned
from the last itinerary endpoint with distance 0.0, a generic note and the
first day's visa, and sets `days = 5`; `target_days = 2` truncates the
itinerary to its first two entries and sets `days = 2`. Note overrides are
applied before the day-count change (the appended days clone the
note-overridden itinerary), overwriting `notes` for matching day indices,
and an override naming a day absent from the itinerary is ignored (a day
named by no override is returned unchanged). -/
theorem claim_C6_adjustments (tp : TripPlan) (a b c : DayPlan)
    (ovs : Option (List DayNoteOverride)) (d : DayPlan)
    (hdays : tp.days = 3) (hitin : tp.itinerary = [a, b, c])
    (hd : ∀ o ∈ ovs.getD [], ¬ o.day = d.day) :
    _apply_adjustments tp ⟨some 5, ovs⟩
      = { tp with
          days := 5
          itinerary :=
            [overrideNotes ovs a, overrideNotes ovs b, overrideNotes ovs c,
             ⟨4, c.end_, c.end_, 0, .null, .null, .null, .null, a.visa,
              "Additional day added per adjustments."⟩,
             ⟨5, c.end_, c.end_, 0, .null, .null, .null, .null, a.visa,
              "Additional day added per adjustments."⟩] }
    ∧ _apply_adjustments tp ⟨some 2, ovs⟩
      = { tp with
          days := 2
          itinerary := [overrideNotes ovs a, overrideNotes ovs b] }
    ∧ overrideNotes ovs d = d := by
  obtain ⟨td, ds, itin, bg⟩ := tp
  obtain rfl : ds = 3 := hdays
  obtain rfl : itin = [a, b, c] := hitin
  refine ⟨?_, ?_, overrideNotes_not_named ovs d hd⟩
  · unfold _apply_adjustments
    rw [applyNoteOverrides_eq_map]
    show applyTargetDays
        ⟨td, 3, [overrideNotes ovs a, overrideNotes ovs b, overrideNotes ovs c],
         bg⟩ ⟨some 5, ovs⟩ = _
    rw [applyTargetDays_five]
    simp [overrideNotes_end_, overrideNotes_visa]
  · unfold _apply_adjustments
    rw [applyNoteOverrides_eq_map]
    show applyTargetDays
        ⟨td, 3, [overrideNotes ovs a, overrideNotes ovs b, overrideNotes ovs c],
         bg⟩ ⟨some 2, ovs⟩ = _
    rw [applyTargetDays_two]

/-- Day 1 of a concrete 3-day trip. -/
def c6a : DayPlan :=
  ⟨1, "Paris", "Dijon", 80, .null, .null, .null, .null,
   .str "none required", "ride"⟩

/-- Day 2 of a concrete 3-day trip. -/
def c6b : DayPlan :=
  ⟨2, "Dijon", "Lyon", 75, .null, .null, .null, .null,
   .str "none required", "ride"⟩

/-- Day 3 of a concrete 3-day trip. -/
def c6c : DayPlan :=
  ⟨3, "Lyon", "Valence", 70, .null, .null, .null, .null,
   .str "none required", "ride"⟩

/-- A concrete assembled 3-day TripPlan. -/
def c6tp : TripPlan := ⟨225, 3, [c6a, c6b, c6c], .null⟩

/-- Concrete note overrides: one matching day 1, one naming an absent day. -/
def c6ovs : Option (List DayNoteOverride) := some [⟨1, "rest day"⟩, ⟨99, "ignored"⟩]

/-- Witness for C6 at the concrete 3-day trip. -/
theorem claim_C6_adjustments_witness :
    _apply_adjustments c6tp ⟨some 5, c6ovs⟩
      = { c6tp with
          days := 5
          itinerary :=
            [overrideNotes c6ovs c6a, overrideNotes c6ovs c6b,
             overrideNotes c6ovs c6c,
             ⟨4, c6c.end_, c6c.end_, 0, .null, .null, .null, .null, c6a.visa,
              "Additional day added per adjustments."⟩,
             ⟨5, c6c.end_, c6c.end_, 0, .null, .null, .null, .null, c6a.visa,
              "Additional day added per adjustments."⟩] }
    ∧ _apply_adjustments c6tp ⟨some 2, c6ovs⟩
      = { c6tp with
          days := 2
          itinerary := [overrideNotes c6ovs c6a, overrideNotes c6ovs c6b] }
    ∧ overrideNotes c6ovs c6c = c6c :=
  claim_C6_adjustments c6tp c6a c6b c6c c6ovs c6c rfl rfl (by decide)

/-! ### Assembler "no plan" cases (claims C8, C10) -/

/-- C10: when the plan's `get_route` entry has been promoted to a list, the
assembler builds from the first accumulated route output only — the result
equals assembling with that first output, whatever the rest of the list
holds — and an empty promoted list yields "no plan" (`none`). -/
theorem claim_C10_promoted_route_list (plan plan2 : List (String × JValue))
    (x : JValue) (xs : List JValue)
    (h : sGet plan "get_route" = .arr (x :: xs))
    (h2 : sGet plan2 "get_route" = .arr []) :
    _build_trip_plan plan = buildTripPlanWithRoute x plan
    ∧ _build_trip_plan plan2 = .ok none := by
  constructor
  · unfold _build_trip_plan routeDataOf
    rw [h]
    rfl
  · unfold _build_trip_plan routeDataOf
    rw [h2]
    rfl

/-- A plan whose promoted route list has a first output with empty segments. -/
def c10plan : List (String × JValue) :=
  [("get_route", .arr [.obj [("segments", .arr [])],
                       .obj [("segments", .str "later ignored")]])]

/-- A plan whose promoted route list is empty. -/
def c10plan2 : List (String × JValue) := [("get_route", .arr [])]

/-- Witness for C10 at concrete plans. -/
theorem claim_C10_promoted_route_list_witness :
    _build_trip_plan c10plan
        = buildTripPlanWithRoute (.obj [("segments", .arr [])]) c10plan
    ∧ _build_trip_plan c10plan2 = .ok none :=
  claim_C10_promoted_route_list c10plan c10plan2
    (.obj [("segments", .arr [])])
    [.obj [("segments", .str "later ignored")]] rfl rfl

/-- C8: the assembler returns "no plan" (`none`), not an error, whenever the
accumulated plan lacks a dict-shaped `get_route` output (unconditionally,
before any other processing), and more generally whenever the per-day
indexing succeeds and the constructed itinerary ends up empty — as it does
when the route's segment list is empty or every segment is skipped. -/
theorem claim_C8_no_plan_not_error (plan plan2 : List (String × JValue))
    (am wm em pm : PyDict) (segs : List JValue)
    (h1 : (routeDataOf plan).isDict = false)
    (h2r : (routeDataOf plan2).isDict = true)
    (h2a : accomByDay plan2 = .ok am) (h2w : weatherByDay plan2 = .ok wm)
    (h2e : elevationByDay plan2 = .ok em) (h2p : poiByDay plan2 = .ok pm)
    (h2s : pyIter (segmentsOf (routeDataOf plan2)) = .ok segs)
    (h2i : buildItinerary segs am wm em pm (visaReqOf plan2) = .ok []) :
    _build_trip_plan plan = .ok none
    ∧ _build_trip_plan plan2 = .ok none := by
  constructor
  · unfold _build_trip_plan buildTripPlanWithRoute
    rw [h1]
    rfl
  · unfold _build_trip_plan buildTripPlanWithRoute
    rw [h2r]
    simp only [Bool.not_true, exceptBind_ok, h2a, h2w, h2e, h2p, h2s, h2i]
    rfl

/-- A plan with no `get_route` output at all. -/
def c8plan : List (String × JValue) :=
  [("get_weather", .obj [("daily", .arr [])])]

/-- A plan whose `get_route` output has an empty segment list. -/
def c8plan2 : List (String × JValue) :=
  [("get_route", .obj [("segments", .arr []), ("days", .num 0)])]

/-- Witness for C8 at concrete plans. -/
theorem claim_C8_no_plan_not_error_witness :
    _build_trip_plan c8plan = .ok none
    ∧ _build_trip_plan c8plan2 = .ok none :=
  claim_C8_no_plan_not_error c8plan c8plan2 [] [] [] [] []
    rfl rfl rfl rfl rfl rfl rfl rfl

/-! ### Plan assembler on a 3-day route with partial weather (claim C5) -/

/-- A route day-segment object of the shape the route tool dumps
(`day`, `start`, `end`, `distance_km`; no `notes`, so the assembler's
default note applies). -/
def mkSeg (day : Rat) (s e : String) (dist : Rat) : JValue :=
  .obj [("day", .num day), ("start", .str s), ("end", .str e),
        ("distance_km", .num dist)]

/-- C5: for a plan whose route output has segments for days `{1, 2, 3}` (in
any payloads, here listed out of order) and whose weather output covers only
day 2, the assembler returns — without error — an itinerary of exactly 3
DayPlans whose day indices are exactly the segment days sorted ascending,
with `weather` set only on day 2 and every absent auxiliary field (the
accommodation, elevation and POI tools are missing from the plan) left
unset. -/
theorem claim_C5_assembler_partial_weather (s1 e1 s2 e2 s3 e3 : String)
    (d1 d2 d3 td bt : Rat) (wrest : List (String × JValue)) :
    _build_trip_plan
      [("get_route", .obj
          [("segments", .arr [mkSeg 2 s2 e2 d2, mkSeg 3 s3 e3 d3,
                              mkSeg 1 s1 e1 d1]),
           ("total_distance_km", .num td), ("days", .num 3)]),
       ("get_weather", .obj [("daily", .arr [.obj (("day", .num 2) :: wrest)])]),
       ("estimate_budget", .obj [("total", .num bt)])]
      = .ok (some ⟨td, 3,
          [⟨1, s1, e1, d1, .null, .null, .null, .null, .null,
            "Continue along secondary roads."⟩,
           ⟨2, s2, e2, d2, .null, .obj (("day", .num 2) :: wrest), .null,
            .null, .null, "Continue along secondary roads."⟩,
           ⟨3, s3, e3, d3, .null, .null, .null, .null, .null,
            "Continue along secondary roads."⟩],
          .obj [("total", .num bt)]⟩) := rfl

/-! ### Non-empty reply (claim C7) -/

theorem finalize_reply_nonempty (env : Env) (lr : Response)
    (plan : List (String × JValue)) (tcs : List Block) (cbIdx : Nat)
    (out : FinalOut × Nat)
    (hf : _finalize_response env lr plan tcs cbIdx = .ok out) :
    out.1.reply_text ≠ "" := by
  cases hstr : env.structured with
  | error e =>
      have hval : _finalize_response env lr plan tcs cbIdx = .error e := by
        simp only [_finalize_response, _emit_progress_ok, exceptBind_ok, hstr,
          exceptBind_error]
      rw [hval] at hf
      cases hf
  | ok s =>
      cases hbtp : _build_trip_plan plan with
      | error e =>
          have hval : _finalize_response env lr plan tcs cbIdx = .error e := by
            simp only [_finalize_response, _emit_progress_ok, exceptBind_ok,
              hstr, hbtp, exceptBind_error]
          rw [hval] at hf
          cases hf
      | ok tp =>
          simp only [_finalize_response, _emit_progress_ok, exceptBind_ok,
            hstr, hbtp, exceptPure] at hf
          rcases s with _ | scr
          all_goals cases hf
          all_goals simp only []
          all_goals repeat' split
          all_goals first | assumption | decide | simp_all

/-- C7: whatever the structured-call outcome (success or parse failure) and
whether or not a plan was assembled, a normally returning
`_finalize_response` yields a non-empty `reply_text`, and hence the `reply`
field of a normally returning `chat` is non-empty. -/
theorem claim_C7_reply_never_empty (env : Env) (lr : Response)
    (plan : List (String × JValue)) (tcs : List Block) (cbIdx : Nat)
    (out : FinalOut × Nat) (mem : InMemoryConversationMemory)
    (cid umsg : String) (res : ChatResult × InMemoryConversationMemory)
    (hf : _finalize_response env lr plan tcs cbIdx = .ok out)
    (hc : chat env mem cid umsg = .ok res) :
    out.1.reply_text ≠ "" ∧ res.1.reply ≠ "" := by
  refine ⟨finalize_reply_nonempty env lr plan tcs cbIdx out hf, ?_⟩
  rcases hbim : _build_initial_messages mem cid umsg with ⟨messages, user_msg⟩
  cases hrt : _run_tool_loop env messages with
  | error e =>
      have hval : chat env mem cid umsg = .error e := by
        simp only [chat, _emit_progress_ok, exceptBind_ok, hbim, hrt,
          exceptBind_error]
      rw [hval] at hc
      cases hc
  | ok st =>
      cases hfin : _finalize_response env st.last_response st.plan
          st.tool_calls 0 with
      | error e =>
          have hval : chat env mem cid umsg = .error e := by
            simp only [chat, _emit_progress_ok, exceptBind_ok, hbim, hrt,
              hfin, exceptBind_error]
          rw [hval] at hc
          cases hc
      | ok out2 =>
          obtain ⟨fin2, cb2⟩ := out2
          have hne := finalize_reply_nonempty env st.last_response st.plan
            st.tool_calls 0 (fin2, cb2) hfin
          simp only [chat, _emit_progress_ok, exceptBind_ok, hbim, hrt, hfin,
            exceptPure] at hc
          cases hc
          exact hne

/-- A gateway environment that requests no tools and whose structured call
fails to parse. -/
def c7env : Env := ⟨fun _ => .ok ⟨[]⟩, fun _ => .ok (.obj []), none, .ok none⟩

/-- The five synthesized clarifying questions. -/
def c7qs : List String :=
  ["What are your start and end locations?",
   "How many kilometers per day would you like to ride?",
   "What dates are you targeting?",
   "Any accommodation preferences or budget?",
   "Any weather conditions to avoid?"]

/-- The finalizer result when nothing was produced. -/
def c7fin : FinalOut :=
  ⟨"I need a few details before planning. Please clarify.", none, some c7qs,
   none⟩

/-- Fresh conversation memory with the agent's default cap. -/
def c7mem : InMemoryConversationMemory := InMemoryConversationMemory.mk0 50

/-- The memory after one turn of `chat` on conversation "c". -/
def c7mem2 : InMemoryConversationMemory :=
  ⟨50,
   [("c", [⟨"user", [textBlock "hi"]⟩,
           ⟨"assistant",
            [textBlock "I need a few details before planning. Please clarify."]⟩])],
   []⟩

/-- The `chat` result for the trivial turn. -/
def c7res : ChatResult × InMemoryConversationMemory :=
  (⟨"c", "I need a few details before planning. Please clarify.", none,
    some c7qs, none⟩, c7mem2)

/-- Witness for C7 at the trivial environment. -/
theorem claim_C7_reply_never_empty_witness :
    (c7fin, 2).1.reply_text ≠ "" ∧ c7res.1.reply ≠ "" :=
  claim_C7_reply_never_empty c7env ⟨[]⟩ [] [] 0 (c7fin, 2) c7mem "c" "hi"
    c7res rfl rfl
